import Mathlib

/-!
# The certificate authority and the node of stoq

A shallow embedding of the certificate authority (the data model of
`include/certificate_authority.h` and the functions of
`src/certificate_authority.c`) and of the node that drives the two transport
sessions (`src/stoq_server.c`, `src/stoq_client.c`, `src/stoq_node.c`),
followed by the properties of section 8 of the specification.

Conventions of the embedding.

* A `char*` is the list of the bytes it points to. The string it denotes ends
  at the first zero byte, or at the end of the list when there is none
  (`cstr`). `strlen`, `strdup` and `strcmp` follow the C library on that
  reading.
* `uint64_t` is a `Nat` reduced modulo `2^64` where the code does arithmetic;
  `time_t` is an `Int` (signed overflow is undefined in C and is not modelled);
  `cert_type_t` is the enum ordinal.
* `time(NULL)` is the argument `now`.
* Pointer arguments are non-NULL and `malloc`, `realloc`, `strdup` and `fopen`
  succeed; the memory a `malloc` returns has arbitrary prior content, which the
  functions that read it before writing it take as an argument.
* The platform is little-endian LP64: `int` has 4 bytes, `time_t` and `size_t`
  have 8.
* A thread function is a function of the node and of what the calls outside
  the source return; what another thread writes to `running` reaches it as the
  value each pass of its loop reads.
-/

namespace Stoq

/-! ## C strings -/

/-- The string a `char*` denotes: the bytes before the first zero byte. -/
def cstr (s : List Nat) : List Nat :=
  s.takeWhile (fun b => b != 0)

/-- The C library `strlen`: number of bytes before the terminator. -/
def strlen (s : List Nat) : Nat :=
  (cstr s).length

/-- The C library `strdup`: a fresh buffer holding the string (its terminator
is the end of the list). -/
def strdup (s : List Nat) : List Nat :=
  cstr s

/-- The C library `strcmp`: the difference of the first pair of bytes that
differ, `0` when both strings end together. The end of a list is a
terminator. -/
def strcmp : List Nat → List Nat → Int
  | [], [] => 0
  | [], b :: _ => if b = 0 then 0 else -(b : Int)
  | a :: _, [] => if a = 0 then 0 else (a : Int)
  | a :: as, b :: bs =>
    if a ≠ b then (a : Int) - (b : Int)
    else if a = 0 then 0
    else strcmp as bs

/-- A string literal of the source (ASCII), as bytes. -/
def lit (s : String) : List Nat :=
  s.toList.map Char.toNat

/-! ## Data model (`include/certificate_authority.h`, `include/network_context.h`) -/

/-- The enum `cert_type_t`, as its ordinal. -/
abbrev cert_type_t := Nat

/-- For private networks. -/
def CERT_TYPE_SELF_SIGNED : cert_type_t := 0
/-- For nodes in federated networks. -/
def CERT_TYPE_FEDERATED : cert_type_t := 1
/-- For public network CAs. -/
def CERT_TYPE_PUBLIC : cert_type_t := 2

/-- Falcon-1024 key structure: three byte buffers of 1793, 2305 and 1330
bytes. -/
structure falcon_keys_t where
  public_key : List Nat
  private_key : List Nat
  signature : List Nat
deriving DecidableEq, Repr

/-- The result of `memset(&keys, 0, sizeof(falcon_keys_t))`. -/
def falcon_keys_zero : falcon_keys_t :=
  { public_key := List.replicate 1793 0
    private_key := List.replicate 2305 0
    signature := List.replicate 1330 0 }

/-- Certificate structure `stoq_cert_t`. A NULL `parent_sig` or `fed_sigs` is
`none`. -/
structure stoq_cert_t where
  serial : Nat
  created : Int
  expires : Int
  type : cert_type_t
  subject : List Nat
  issuer : List Nat
  keys : falcon_keys_t
  parent_sig : Option (List Nat)
  sig_count : Nat
  fed_sigs : Option (List (List Nat))
deriving DecidableEq, Repr

/-- CA context structure `ca_context_t`; `issued_count` is the length of
`issued`. The entries of `issued` are the certificates as they were when
issued. -/
structure ca_context_t where
  ca_cert : stoq_cert_t
  issued : List stoq_cert_t
deriving DecidableEq, Repr

/-- The field `issued_count` of `ca_context_t`. -/
def ca_context_t.issued_count (ca : ca_context_t) : Nat :=
  ca.issued.length

/-- Network context structure `network_context_t` (its string fields). -/
structure network_context_t where
  mode : List Nat
  hostname : List Nat
  server : List Nat
deriving DecidableEq, Repr

/-! ## Signing, issuing, verifying -/

/-- Wrap-around of `uint64_t` arithmetic. -/
def u64 (n : Nat) : Nat :=
  n % 2 ^ 64

/-- `sign_certificate`: no signature is computed; the serial of the CA
certificate is incremented. Returns the status and the CA context. -/
def sign_certificate (_cert : stoq_cert_t) (ca : ca_context_t) : Int × ca_context_t :=
  (0, { ca with ca_cert := { ca.ca_cert with serial := u64 (ca.ca_cert.serial + 1) } })

/-- The certificate `handle_cert_request` allocates, zeroes and fills in
(`new_cert` in the source). -/
def new_cert (now : Int) (ca : ca_context_t) (hostname : List Nat) : stoq_cert_t :=
  { serial := u64 (ca.ca_cert.serial + 1)
    created := now
    expires := now + 30 * 24 * 60 * 60
    type := ca.ca_cert.type
    subject := strdup hostname
    issuer := strdup ca.ca_cert.subject
    keys := falcon_keys_zero
    parent_sig := none
    sig_count := 0
    fed_sigs := none }

/-- `handle_cert_request`: returns the status, the CA context afterwards and
the certificate stored through `cert`. -/
def handle_cert_request (now : Int) (ca : ca_context_t) (hostname : List Nat) :
    Int × ca_context_t × Option stoq_cert_t :=
  -- Initialize certificate fields
  let cert := new_cert now ca hostname
  -- Sign the certificate
  let signed := sign_certificate cert ca
  if signed.1 ≠ 0 then (-1, signed.2, none)
  -- Add to issued certificates list
  else (0, { signed.2 with issued := signed.2.issued ++ [cert] }, some cert)

/-- The loop of `verify_certificate` over the issued list: `true` when some
entry carries the serial. -/
def serial_issued (serial : Nat) : List stoq_cert_t → Bool
  | [] => false
  | c :: rest => if serial = c.serial then true else serial_issued serial rest

/-- `verify_certificate`: `0` on success, `-1` on failure. -/
def verify_certificate (now : Int) (cert : stoq_cert_t) (ca : ca_context_t) : Int :=
  if now > cert.expires then -1
  else if cert.type = CERT_TYPE_SELF_SIGNED then
    if strcmp cert.subject cert.issuer ≠ 0 then -1 else 0
  else if strcmp cert.issuer ca.ca_cert.subject ≠ 0 then -1
  else if serial_issued cert.serial ca.issued then 0
  else -1

/-! ## Persistence (`save_certificate`, `load_certificate`) -/

/-- The object representation of an unsigned integer of `w` bytes, least
significant byte first. -/
def le_bytes : Nat → Nat → List Nat
  | 0, _ => []
  | w + 1, v => v % 256 :: le_bytes w (v / 256)

/-- The unsigned value of an object representation. -/
def le_value : List Nat → Nat
  | [] => 0
  | b :: bs => b % 256 + 256 * le_value bs

/-- The 8 bytes of a `time_t` (two's complement). -/
def time_bytes (t : Int) : List Nat :=
  le_bytes 8 (t % 2 ^ 64).toNat

/-- The `time_t` held in 8 bytes (two's complement). -/
def time_value (bs : List Nat) : Int :=
  if le_value bs < 2 ^ 63 then (le_value bs : Int) else (le_value bs : Int) - 2 ^ 64

/-- The calls `fwrite(ptr, size, 1, f)` and `fwrite(ptr, 1, size, f)`: the first `size` bytes of the object
at `ptr` are appended to the file. -/
def fwrite (obj : List Nat) (size : Nat) (f : List Nat) : List Nat :=
  f ++ obj.take size

/-- The calls `fread(ptr, size, 1, f)` and `fread(ptr, 1, size, f)`: the bytes available, at most `size`, are
copied over the start of the object at `ptr`, whose other bytes keep their
prior content `obj`. Returns the object and the rest of the file. The return
value of `fread` is not looked at by the source. -/
def fread (obj : List Nat) (size : Nat) (f : List Nat) : List Nat × List Nat :=
  (f.take size ++ obj.drop (f.take size).length, f.drop size)

/-- `save_certificate`: the status and the content of the file written (the
file is opened with `"wb"`, so earlier content is gone). -/
def save_certificate (cert : stoq_cert_t) : Int × List Nat :=
  let f : List Nat := []
  -- Write certificate data
  let f := fwrite (le_bytes 8 cert.serial) 4 f
  let f := fwrite (time_bytes cert.created) 8 f
  let f := fwrite (time_bytes cert.expires) 8 f
  let f := fwrite (le_bytes 4 cert.type) 4 f
  -- Write strings
  let len := u64 (strlen cert.subject + 1)
  let f := fwrite (le_bytes 8 len) 8 f
  let f := fwrite (cert.subject ++ [0]) len f
  let len := u64 (strlen cert.issuer + 1)
  let f := fwrite (le_bytes 8 len) 8 f
  let f := fwrite (cert.issuer ++ [0]) len f
  (0, f)

/-- Prior content of the memory `load_certificate` reads into without
initialising it: the fields of the `malloc`ed certificate, the local `len`,
and the two string blocks; each gives the byte at an offset. -/
structure uninit_t where
  serial : Nat → Nat
  created : Nat → Nat
  expires : Nat → Nat
  type : Nat → Nat
  len : Nat → Nat
  subject : Nat → Nat
  issuer : Nat → Nat

/-- The first `n` bytes of a region of memory. -/
def block (g : Nat → Nat) (n : Nat) : List Nat :=
  (List.range n).map g

/-- Memory whose every byte is zero. -/
def zeroed : uninit_t :=
  { serial := fun _ => 0, created := fun _ => 0, expires := fun _ => 0, type := fun _ => 0,
    len := fun _ => 0, subject := fun _ => 0, issuer := fun _ => 0 }

/-- `load_certificate` when `malloc` serves every block it is asked for, the
convention of this file: `none` is NULL, returned when the file cannot be
opened (`file = none`). A string field is the block read into; when the block
holds no zero byte the C string would run past it, and the model stops at the
end of the block. The source checks neither `malloc(len)` nor `fread`;
`load_certificate_malloc` is the same function with the answers of `malloc`. -/
def load_certificate (mem : uninit_t) (file : Option (List Nat)) : Option stoq_cert_t :=
  match file with
  | none => none
  | some f =>
    -- Read certificate data
    let serial := fread (block mem.serial 8) 4 f
    let created := fread (block mem.created 8) 8 serial.2
    let expires := fread (block mem.expires 8) 8 created.2
    let type := fread (block mem.type 4) 4 expires.2
    -- Read strings
    let len1 := fread (block mem.len 8) 8 type.2
    let subject := fread (block mem.subject (le_value len1.1)) (le_value len1.1) len1.2
    let len2 := fread len1.1 8 subject.2
    let issuer := fread (block mem.issuer (le_value len2.1)) (le_value len2.1) len2.2
    some
      { serial := le_value serial.1
        created := time_value created.1
        expires := time_value expires.1
        type := le_value type.1
        subject := subject.1
        issuer := issuer.1
        -- Initialize other fields
        keys := falcon_keys_zero
        parent_sig := none
        sig_count := 0
        fed_sigs := none }

/-- What `malloc` answers inside `load_certificate`: whether the block of the
certificate is served and, for each length, whether a string block of that
length is. -/
structure malloc_t where
  cert : Bool
  block : Nat → Bool

/-- How a call of `load_certificate` ends: it returns a certificate or NULL,
or it does something the C language leaves undefined. -/
inductive load_outcome where
  | returned (cert : Option stoq_cert_t)
  | undefined
deriving DecidableEq, Repr

/-- The two lengths `load_certificate` reads from the file, or finds in the
local `len` where the file has ended, and passes to `malloc`. -/
def load_lengths (mem : uninit_t) (f : List Nat) : Nat × Nat :=
  let serial := fread (block mem.serial 8) 4 f
  let created := fread (block mem.created 8) 8 serial.2
  let expires := fread (block mem.expires 8) 8 created.2
  let type := fread (block mem.type 4) 4 expires.2
  let len1 := fread (block mem.len 8) 8 type.2
  let subject := fread (block mem.subject (le_value len1.1)) (le_value len1.1) len1.2
  let len2 := fread len1.1 8 subject.2
  (le_value len1.1, le_value len2.1)

/-- `load_certificate` with the answers of `malloc`. A refused certificate
block makes the function close the file and return NULL. A refused string
block is not checked: the source hands the NULL pointer to `fread` with a
length that is not 0, for which C defines no behaviour. -/
def load_certificate_malloc (heap : malloc_t) (mem : uninit_t) (file : Option (List Nat)) :
    load_outcome :=
  match file with
  | none => load_outcome.returned none
  | some f =>
    if heap.cert = false then load_outcome.returned none
    else
      -- Read certificate data
      let serial := fread (block mem.serial 8) 4 f
      let created := fread (block mem.created 8) 8 serial.2
      let expires := fread (block mem.expires 8) 8 created.2
      let type := fread (block mem.type 4) 4 expires.2
      -- Read strings
      let len1 := fread (block mem.len 8) 8 type.2
      if le_value len1.1 ≠ 0 ∧ heap.block (le_value len1.1) = false then load_outcome.undefined
      else
        let subject := fread (block mem.subject (le_value len1.1)) (le_value len1.1) len1.2
        let len2 := fread len1.1 8 subject.2
        if le_value len2.1 ≠ 0 ∧ heap.block (le_value len2.1) = false then
          load_outcome.undefined
        else
          let issuer := fread (block mem.issuer (le_value len2.1)) (le_value len2.1) len2.2
          load_outcome.returned (some
            { serial := le_value serial.1
              created := time_value created.1
              expires := time_value expires.1
              type := le_value type.1
              subject := subject.1
              issuer := issuer.1
              -- Initialize other fields
              keys := falcon_keys_zero
              parent_sig := none
              sig_count := 0
              fed_sigs := none })

/-! ## Initialisation (`init_certificate_authority`) -/

/-- `init_certificate_authority`: `file` is the content of `ca.cert`, `none`
when `access("ca.cert", F_OK)` fails. Returns the status, the CA context and
the content of `ca.cert` afterwards. -/
def init_certificate_authority (now : Int) (mem : uninit_t) (net_ctx : network_context_t)
    (file : Option (List Nat)) : Int × Option ca_context_t × Option (List Nat) :=
  match file with
  | none =>
    -- Initialize new CA certificate
    let ca_cert : stoq_cert_t :=
      { keys := falcon_keys_zero
        serial := 1
        created := now
        expires := now + 365 * 24 * 60 * 60
        subject := strdup net_ctx.hostname
        issuer := strdup net_ctx.hostname
        parent_sig := none
        sig_count := 0
        fed_sigs := none
        -- Set certificate type based on mode
        type :=
          if strcmp net_ctx.mode (lit "private") = 0 then CERT_TYPE_SELF_SIGNED
          else if strcmp net_ctx.mode (lit "federated") = 0 then CERT_TYPE_FEDERATED
          else CERT_TYPE_PUBLIC }
    let saved := save_certificate ca_cert
    if saved.1 ≠ 0 then (-1, none, none)
    else (0, some { ca_cert := ca_cert, issued := [] }, some saved.2)
  | some f =>
    match load_certificate mem (some f) with
    | none => (-1, none, some f)
    | some ca_cert => (0, some { ca_cert := ca_cert, issued := [] }, some f)

/-! ## Sequences of calls on one CA -/

/-- A call on a CA context: `handle_cert_request` or `verify_certificate`. -/
inductive ca_call where
  | issue (now : Int) (hostname : List Nat)
  | verify (now : Int) (cert : stoq_cert_t)
deriving DecidableEq, Repr

/-- The CA context after one call; `verify_certificate` writes nothing. -/
def run_call (ca : ca_context_t) : ca_call → ca_context_t
  | .issue now hostname => (handle_cert_request now ca hostname).2.1
  | .verify _ _ => ca

/-- The CA context after a sequence of calls, first call first. -/
def run_calls (ca : ca_context_t) (calls : List ca_call) : ca_context_t :=
  calls.foldl run_call ca

/-- Number of `handle_cert_request` calls in a sequence. -/
def issue_count : List ca_call → Nat
  | [] => 0
  | .issue _ _ :: rest => issue_count rest + 1
  | .verify _ _ :: rest => issue_count rest

/-! ## Federation signatures -/

/-- Modelled from the spec: `add_federation_signature` is declared in
`include/certificate_authority.h` and defined in no source file. By section 4.1
of the specification it appends the co-signature to the federation signatures
of the certificate and changes neither the serial nor the issuer; by scenario
B the core identity fields are unchanged. The count `sig_count` follows the
array. Returns the status and the certificate. -/
def add_federation_signature (cert : stoq_cert_t) (signature : List Nat) : Int × stoq_cert_t :=
  (0, { cert with
        fed_sigs := some (cert.fed_sigs.getD [] ++ [signature])
        sig_count := cert.sig_count + 1 })

/-! ## Transport sessions and the node (`stoq_server.c`, `stoq_client.c`, `stoq_node.c`)

The transport library, the sockets and the threads are outside the source. What
their calls return is an argument of the model, and the calls that acquire or
release a resource are recorded as events in the order the code makes them. -/

/-- A call of the source that is recorded: creation and deletion of a
transport connection, creation and closing of a socket, joining a thread,
freeing the node, and the two calls by which the client task reaches out. -/
inductive event where
  | conn_new (conn : Nat)
  | conn_del (conn : Nat)
  | sock_new (fd : Int)
  | sock_close (fd : Int)
  | thread_join (server : Bool)
  | node_free
  | client_init
  | client_connect
deriving DecidableEq, Repr

/-- The structure `stoq_server_config_t` without its TLS objects and
connection ids. A NULL pointer is `none`. -/
structure stoq_server_config_t where
  bind_address : Option (List Nat)
  port : Int
  ca_ctx : Option ca_context_t
  cert : Option stoq_cert_t
  keys : Option falcon_keys_t
  conn : Option Nat
  sock : Int
deriving DecidableEq, Repr

/-- The structure `stoq_client_config_t`. A NULL pointer is `none`. -/
structure stoq_client_config_t where
  conn : Option Nat
  sock : Int
  bind_address : Option (List Nat)
  port : Int
  ca_ctx : Option ca_context_t
  cert : Option stoq_cert_t
deriving DecidableEq, Repr

/-- The structure `stoq_node_t` without its thread handles. -/
structure stoq_node_t where
  server_config : stoq_server_config_t
  client_config : stoq_client_config_t
  net_ctx : network_context_t
  running : Int
  server_connected : Int
  client_connected : Int
deriving DecidableEq, Repr

/-- What the calls outside the source return during the initialisation of one
session: the two readings of the clock, the prior content of the memory the
root is loaded into, whether `RAND_bytes` succeeded, the connection
`ngtcp2_conn_server_new` or `ngtcp2_conn_client_new` made (`none` when it
failed), the return of `socket` and the return of `bind` or `connect`. -/
structure session_env where
  now : Int
  now_cert : Int
  mem : uninit_t
  rand_ok : Bool
  conn : Option Nat
  sock : Int
  bound : Int

/-- What one pass of a polling loop observes: the value of `node->running` at
the head of the loop and what `ngtcp2_conn_get_handshake_completed` reports. -/
structure tick where
  running : Int
  handshake : Bool
deriving DecidableEq, Repr

/-- Result of `init_stoq_server`: status, the config written, the events and
the content of `ca.cert` afterwards. -/
structure server_result where
  status : Int
  config : stoq_server_config_t
  events : List event
  file : Option (List Nat)

/-- Result of `init_stoq_client`: status, the config written, the events and
the content of `ca.cert` afterwards. -/
structure client_result where
  status : Int
  config : stoq_client_config_t
  events : List event
  file : Option (List Nat)

/-- Result of a thread function: the node, the events and the content of
`ca.cert` afterwards. -/
structure thread_result where
  node : stoq_node_t
  events : List event
  file : Option (List Nat)

/-- Conversion to `uint16_t`. -/
def u16 (n : Int) : Int :=
  n % 65536

/-- `init_stoq_server`. -/
def init_stoq_server (env : session_env) (config : stoq_server_config_t)
    (net_ctx : network_context_t) (file : Option (List Nat)) : server_result :=
  -- Initialize certificate authority
  let ca := init_certificate_authority env.now env.mem net_ctx file
  match ca.2.1 with
  | none => ⟨-1, config, [], ca.2.2⟩
  | some ca_ctx =>
    if ca.1 ≠ 0 then ⟨-1, config, [], ca.2.2⟩
    else
      -- Request server certificate from CA
      let req := handle_cert_request env.now_cert ca_ctx net_ctx.hostname
      if req.1 ≠ 0 then ⟨-1, config, [], ca.2.2⟩
      else
        -- Store certificate in config, copy keys from certificate
        let config := { config with
          ca_ctx := some req.2.1
          cert := req.2.2
          keys := req.2.2.map (fun c => c.keys) }
        -- Initialize CIDs with random data
        if !env.rand_ok then ⟨-1, config, [], ca.2.2⟩
        else
          -- Set up QUIC connection
          match env.conn with
          | none => ⟨-1, config, [], ca.2.2⟩
          | some conn =>
            let config := { config with conn := some conn }
            -- Create UDP socket
            let config := { config with sock := env.sock }
            if env.sock < 0 then ⟨-1, config, [event.conn_new conn], ca.2.2⟩
            -- Bind socket
            else if env.bound < 0 then
              ⟨-1, config,
                [event.conn_new conn, event.sock_new env.sock, event.sock_close env.sock], ca.2.2⟩
            else ⟨0, config, [event.conn_new conn, event.sock_new env.sock], ca.2.2⟩

/-- The result of `memset(config, 0, sizeof(stoq_client_config_t))`. -/
def client_config_zero : stoq_client_config_t :=
  { conn := none, sock := 0, bind_address := none, port := 0, ca_ctx := none, cert := none }

/-- `init_stoq_client`: the connection and the socket are locals of the
function and reach the config only on success. -/
def init_stoq_client (env : session_env) (net_ctx : network_context_t) (remote_addr : List Nat)
    (port : Int) (_config : stoq_client_config_t) (file : Option (List Nat)) : client_result :=
  -- Initialize the provided config structure
  let config := client_config_zero
  let ca := init_certificate_authority env.now env.mem net_ctx file
  match ca.2.1 with
  | none => ⟨-1, config, [], ca.2.2⟩
  | some ca_ctx =>
    if ca.1 ≠ 0 then ⟨-1, config, [], ca.2.2⟩
    else
      -- Request client certificate from CA
      let req := handle_cert_request env.now_cert ca_ctx net_ctx.hostname
      if req.1 ≠ 0 then ⟨-1, config, [], ca.2.2⟩
      else
        -- Set up QUIC connection with custom cert handling
        match env.conn with
        | none => ⟨-1, config, [], ca.2.2⟩
        | some conn =>
          -- Create UDP socket
          if env.sock < 0 then ⟨-1, config, [event.conn_new conn], ca.2.2⟩
          -- Connect to server
          else if env.bound < 0 then
            ⟨-1, config,
              [event.conn_new conn, event.sock_new env.sock, event.sock_close env.sock], ca.2.2⟩
          else
            -- Store values directly in the provided config
            ⟨0,
              { conn := some conn
                sock := env.sock
                bind_address := some (strdup remote_addr)
                port := u16 port
                ca_ctx := some req.2.1
                cert := req.2.2 },
              [event.conn_new conn, event.sock_new env.sock], ca.2.2⟩

/-- `stoq_client_connect`: `n` is what `ngtcp2_conn_write_pkt` returns and
`sent` what `sendto` returns. -/
def stoq_client_connect (_config : stoq_client_config_t) (n sent : Int) : Int :=
  if n > 0 then
    if sent < 0 then -1 else 0
  else 0

/-- `stoq_server_process_events`: `-1` on a NULL config, else one datagram is
received and answered when there is one, which touches no field of the node,
and the return is `0`. -/
def stoq_server_process_events (config : Option stoq_server_config_t) : Int :=
  match config with
  | none => -1
  | some _ => 0

/-- `stoq_client_process_events`: `-1` on a NULL config, else `0`. -/
def stoq_client_process_events (config : Option stoq_client_config_t) : Int :=
  match config with
  | none => -1
  | some _ => 0

/-- `init_node`: `server_started` and `client_started` say whether the two
`pthread_create` calls succeeded. The node is `none` when the function frees
it. The argument `ca_ctx` is not used by the source. -/
def init_node (net_ctx : network_context_t) (_ca_ctx : ca_context_t)
    (server_port client_port : Int) (server_started client_started : Bool) :
    Int × Option stoq_node_t :=
  -- Initialize node structure
  let node : stoq_node_t :=
    { server_config :=
        { bind_address := some net_ctx.hostname, port := server_port,
          ca_ctx := none, cert := none, keys := none, conn := none, sock := 0 }
      client_config :=
        { client_config_zero with
          bind_address := some net_ctx.hostname, port := u16 client_port }
      net_ctx := net_ctx
      running := 1
      server_connected := 0
      client_connected := 0 }
  -- Start server thread
  if !server_started then (1, none)
  -- Start client thread
  else if !client_started then (1, none)
  else (0, some node)

/-- The loop of `server_thread_func`, one pass per element of `ticks`. -/
def server_loop : List tick → stoq_node_t → stoq_node_t
  | [], node => node
  | t :: rest, node =>
    if t.running = 0 then node
    else if stoq_server_process_events (some node.server_config) < 0 then node
    else
      -- Check connection state
      let node :=
        if t.handshake then
          if node.server_connected = 0 then { node with server_connected := 1 } else node
        else node
      server_loop rest node

/-- `server_thread_func`. -/
def server_thread_func (env : session_env) (ticks : List tick) (node : stoq_node_t)
    (file : Option (List Nat)) : thread_result :=
  let r := init_stoq_server env node.server_config node.net_ctx file
  if r.status ≠ 0 then
    ⟨{ node with server_config := r.config, running := 0 }, r.events, r.file⟩
  else
    ⟨server_loop ticks { node with server_config := r.config }, r.events, r.file⟩

/-- The loop of `client_thread_func`, one pass per element of `ticks`. -/
def client_loop : List tick → stoq_node_t → stoq_node_t
  | [], node => node
  | t :: rest, node =>
    if t.running = 0 then node
    else if stoq_client_process_events (some node.client_config) < 0 then node
    else
      -- Check connection state
      let node :=
        if t.handshake then
          if node.client_connected = 0 then { node with client_connected := 1 } else node
        else node
      client_loop rest node

/-- `client_thread_func`: `n` and `sent` are what `ngtcp2_conn_write_pkt` and
`sendto` return inside `stoq_client_connect`. -/
def client_thread_func (env : session_env) (n sent : Int) (ticks : List tick)
    (node : stoq_node_t) (file : Option (List Nat)) : thread_result :=
  if strcmp node.net_ctx.mode (lit "federated") = 0 ∨
      strcmp node.net_ctx.mode (lit "private") = 0 then
    if strlen node.net_ctx.server > 0 ∧
        strcmp node.net_ctx.server node.net_ctx.hostname ≠ 0 then
      let r := init_stoq_client env node.net_ctx node.net_ctx.server
        node.server_config.port node.client_config file
      if r.status ≠ 0 then
        ⟨{ node with client_config := r.config, running := 0 },
          event.client_init :: r.events, r.file⟩
      else if stoq_client_connect r.config n sent ≠ 0 then
        ⟨{ node with client_config := r.config, running := 0 },
          event.client_init :: r.events ++ [event.client_connect], r.file⟩
      else
        ⟨client_loop ticks { node with client_config := r.config },
          event.client_init :: r.events ++ [event.client_connect], r.file⟩
    else ⟨client_loop ticks node, [], file⟩
  else ⟨client_loop ticks node, [], file⟩

/-- What a pointer to a node points to: nothing (NULL), a node, or a block
that was freed. -/
inductive node_ptr where
  | null
  | valid (node : stoq_node_t)
  | freed
deriving DecidableEq, Repr

/-- `cleanup_node`, one call on NULL (`none`) or on a node: what the pointer of
the caller points to afterwards, and the events. The source frees the node and
cannot reset the pointer of the caller, which is left on the freed block. -/
def cleanup_node : Option stoq_node_t → node_ptr × List event
  | none => (node_ptr.null, [])
  | some node =>
    -- Signal threads to stop
    let node : stoq_node_t := { node with running := 0 }
    (node_ptr.freed,
      -- Wait for threads to finish
      [event.thread_join true, event.thread_join false] ++
      -- Cleanup server
      (match node.server_config.conn with
        | some conn => [event.conn_del conn]
        | none => []) ++
      (if node.server_config.sock > 0 then [event.sock_close node.server_config.sock] else []) ++
      -- Cleanup client
      (match node.client_config.conn with
        | some conn => [event.conn_del conn]
        | none => []) ++
      (if node.client_config.sock > 0 then [event.sock_close node.client_config.sock] else []) ++
      [event.node_free])

/-- A root certificate for `localhost` of the given type, valid from 0 for 365
days. -/
def sample_root (type : cert_type_t) : stoq_cert_t :=
  { serial := 1, created := 0, expires := 31536000, type := type,
    subject := lit "localhost", issuer := lit "localhost",
    keys := falcon_keys_zero, parent_sig := none, sig_count := 0, fed_sigs := none }

/-- A CA holding `sample_root` and an empty issued list. -/
def sample_ca (type : cert_type_t) : ca_context_t :=
  { ca_cert := sample_root type, issued := [] }

/-- A federated certificate of serial 2 whose issuer is `example.org`. -/
def foreign_cert : stoq_cert_t :=
  { sample_root CERT_TYPE_FEDERATED with serial := 2, issuer := lit "example.org" }

/-- A federated CA for `localhost` whose issued list holds a certificate of
serial 2. -/
def ledger_ca : ca_context_t :=
  { ca_cert := sample_root CERT_TYPE_FEDERATED,
    issued := [{ sample_root CERT_TYPE_FEDERATED with serial := 2 }] }

/-- A network context for `localhost` in the given mode. -/
def sample_ctx (mode : String) : network_context_t :=
  { mode := lit mode, hostname := lit "localhost", server := lit "localhost" }

/-- The sample public root carrying key material, a parent signature and one
federation signature. -/
def keyed_root : stoq_cert_t :=
  { sample_root CERT_TYPE_PUBLIC with
    keys :=
      { public_key := List.replicate 1793 1
        private_key := List.replicate 2305 2
        signature := List.replicate 1330 3 }
    parent_sig := some [4, 5]
    sig_count := 1
    fed_sigs := some [[6, 7]] }

/-- Memory whose bytes are zero except at the serial field, where each byte
is 7. -/
def stale_memory : uninit_t :=
  { zeroed with serial := fun _ => 7 }

/-- A network context for `localhost` in the given mode whose peer is
`peer.localhost`. -/
def peer_ctx (mode : String) : network_context_t :=
  { mode := lit mode, hostname := lit "localhost", server := lit "peer.localhost" }

/-- A session in which every outside call succeeds: connection 1, socket 5. -/
def good_env : session_env :=
  { now := 1000, now_cert := 1000, mem := zeroed, rand_ok := true, conn := some 1, sock := 5,
    bound := 0 }

/-- The node `init_node` builds for `peer_ctx` in private mode on the default
ports. -/
def sample_node : stoq_node_t :=
  { server_config :=
      { bind_address := some (lit "localhost"), port := 10053, ca_ctx := none, cert := none,
        keys := none, conn := none, sock := 0 }
    client_config :=
      { client_config_zero with bind_address := some (lit "localhost"), port := 10443 }
    net_ctx := peer_ctx "private"
    running := 1
    server_connected := 0
    client_connected := 0 }

/-- A second session in which every outside call succeeds: connection 2,
socket 6. -/
def other_env : session_env :=
  { good_env with conn := some 2, sock := 6 }

/-- Memory whose bytes are zero except at the serial field, where each byte
is 255. -/
def full_memory : uninit_t :=
  { zeroed with serial := fun _ => 255 }

/-- A root file for `localhost` of type Public, valid from 0 for 365 days,
whose four serial bytes are `FE FF FF FF`. -/
def high_serial_file : List Nat :=
  [254, 255, 255, 255] ++ [0, 0, 0, 0, 0, 0, 0, 0] ++ [128, 51, 225, 1, 0, 0, 0, 0] ++
    [2, 0, 0, 0] ++
    [10, 0, 0, 0, 0, 0, 0, 0] ++ (lit "localhost" ++ [0]) ++
    [10, 0, 0, 0, 0, 0, 0, 0] ++ (lit "localhost" ++ [0])

/-- A `malloc` that serves the certificate and every string block of at most
`2^20` bytes. -/
def small_heap : malloc_t :=
  { cert := true, block := fun n => decide (n ≤ 1048576) }

/-- A file that ends inside the subject: the fixed fields, a subject length of
5 and 2 bytes. -/
def short_file : List Nat :=
  [1, 0, 0, 0] ++ [0, 0, 0, 0, 0, 0, 0, 0] ++ [0, 0, 0, 0, 0, 0, 0, 0] ++
    [2, 0, 0, 0] ++ [5, 0, 0, 0, 0, 0, 0, 0] ++ [97, 0]

/-! ## Strings: lemmas -/

theorem cstr_nil : cstr [] = [] := rfl

theorem cstr_cons_zero (s : List Nat) : cstr (0 :: s) = [] := by
  simp [cstr]

theorem cstr_cons_ne (b : Nat) (s : List Nat) (h : b ≠ 0) : cstr (b :: s) = b :: cstr s := by
  simp [cstr, List.takeWhile_cons, h]

/-- `strcmp` returns `0` exactly on buffers that denote the same string. -/
theorem strcmp_eq_zero_iff (a b : List Nat) : strcmp a b = 0 ↔ cstr a = cstr b := by
  induction a generalizing b with
  | nil =>
    cases b with
    | nil => simp [strcmp]
    | cons y ys =>
      by_cases hy : y = 0
      · subst hy; simp [strcmp, cstr_cons_zero, cstr_nil]
      · simp [strcmp, cstr_cons_ne, cstr_nil, hy]
  | cons x xs ih =>
    cases b with
    | nil =>
      by_cases hx : x = 0
      · subst hx; simp [strcmp, cstr_cons_zero, cstr_nil]
      · simp [strcmp, cstr_cons_ne, cstr_nil, hx]
    | cons y ys =>
      by_cases hxy : x = y
      · subst hxy
        by_cases hx : x = 0
        · subst hx; simp [strcmp, cstr_cons_zero]
        · simp [strcmp, cstr_cons_ne, hx, ih]
      · have hne : (x : Int) - (y : Int) ≠ 0 := by omega
        by_cases hx : x = 0
        · subst hx
          have hy : y ≠ 0 := fun h => hxy h.symm
          simp [strcmp, cstr_cons_zero, cstr_cons_ne, hy]
          omega
        · by_cases hy : y = 0
          · subst hy; simp [strcmp, cstr_cons_zero, cstr_cons_ne, hx]
          · simp [strcmp, cstr_cons_ne, hx, hy, hxy, hne]

theorem cstr_idem (s : List Nat) : cstr (cstr s) = cstr s := by
  induction s with
  | nil => rfl
  | cons b s ih =>
    by_cases hb : b = 0
    · subst hb; simp [cstr_cons_zero, cstr_nil]
    · simp [cstr_cons_ne, hb, ih]

/-- A buffer without a zero byte denotes itself. -/
theorem cstr_of_no_nul (s : List Nat) (h : ∀ b ∈ s, b ≠ 0) : cstr s = s := by
  induction s with
  | nil => rfl
  | cons b s ih =>
    have hb : b ≠ 0 := h b (List.mem_cons_self _ _)
    rw [cstr_cons_ne b s hb, ih (fun c hc => h c (List.mem_cons_of_mem _ hc))]

theorem strcmp_strdup (s : List Nat) : strcmp (strdup s) s = 0 := by
  rw [strcmp_eq_zero_iff]; exact cstr_idem s

/-! ## Issuing -/

/-- Closed form of `handle_cert_request`. -/
theorem handle_cert_request_eq (now : Int) (ca : ca_context_t) (hostname : List Nat) :
    handle_cert_request now ca hostname =
      (0,
       { ca_cert := { ca.ca_cert with serial := u64 (ca.ca_cert.serial + 1) }
         issued := ca.issued ++ [new_cert now ca hostname] },
       some (new_cert now ca hostname)) := by
  simp [handle_cert_request, sign_certificate]

/-- The CA context after `handle_cert_request`, field by field. -/
theorem handle_cert_request_state (now : Int) (ca : ca_context_t) (hostname : List Nat) :
    (handle_cert_request now ca hostname).2.1.ca_cert.serial = u64 (ca.ca_cert.serial + 1) ∧
    (handle_cert_request now ca hostname).2.1.ca_cert.subject = ca.ca_cert.subject ∧
    (handle_cert_request now ca hostname).2.1.ca_cert.type = ca.ca_cert.type ∧
    (handle_cert_request now ca hostname).2.1.issued = ca.issued ++ [new_cert now ca hostname] := by
  rw [handle_cert_request_eq]
  exact ⟨rfl, rfl, rfl, rfl⟩

/-- C1: for every CA state and every hostname, `handle_cert_request` succeeds
and returns a certificate whose subject is the hostname and whose issuer is the
subject of the CA certificate, as strings and under `strcmp`. -/
theorem issue_subject_issuer (now : Int) (ca : ca_context_t) (hostname : List Nat) :
    (handle_cert_request now ca hostname).1 = 0 ∧
    ∃ cert, (handle_cert_request now ca hostname).2.2 = some cert ∧
      cert.subject = cstr hostname ∧ strcmp cert.subject hostname = 0 ∧
      cert.issuer = cstr ca.ca_cert.subject ∧ strcmp cert.issuer ca.ca_cert.subject = 0 := by
  rw [handle_cert_request_eq]
  exact ⟨rfl, _, rfl, rfl, strcmp_strdup hostname, rfl, strcmp_strdup ca.ca_cert.subject⟩

/-- C10: from a counter `k` with `k + 1 < 2^64`, `handle_cert_request` succeeds,
the certificate it returns has serial `k + 1`, the issued list afterwards is the
list before followed by that certificate, and the counter is `k + 1`. -/
theorem issue_advances_by_one (now : Int) (ca : ca_context_t) (hostname : List Nat) (k : Nat)
    (hk : ca.ca_cert.serial = k) (hlt : k + 1 < 2 ^ 64) :
    (handle_cert_request now ca hostname).1 = 0 ∧
    ∃ cert, (handle_cert_request now ca hostname).2.2 = some cert ∧
      cert.serial = k + 1 ∧
      (handle_cert_request now ca hostname).2.1.issued = ca.issued ++ [cert] ∧
      (handle_cert_request now ca hostname).2.1.issued_count = ca.issued_count + 1 ∧
      (handle_cert_request now ca hostname).2.1.ca_cert.serial = k + 1 := by
  rw [handle_cert_request_eq]
  have hu : u64 (ca.ca_cert.serial + 1) = k + 1 := by
    rw [hk]; exact Nat.mod_eq_of_lt hlt
  refine ⟨rfl, _, rfl, hu, rfl, ?_, hu⟩
  simp [ca_context_t.issued_count]

/-- Witness of C10: the sample public CA, whose counter is 1, issues serial 2. -/
theorem issue_advances_by_one_witness :
    ((sample_ca CERT_TYPE_PUBLIC).ca_cert.serial = 1 ∧ 1 + 1 < 2 ^ 64) ∧
    (handle_cert_request 1000 (sample_ca CERT_TYPE_PUBLIC) (lit "test.localhost")).1 = 0 ∧
    ∃ cert, (handle_cert_request 1000 (sample_ca CERT_TYPE_PUBLIC) (lit "test.localhost")).2.2
        = some cert ∧
      cert.serial = 1 + 1 ∧
      (handle_cert_request 1000 (sample_ca CERT_TYPE_PUBLIC) (lit "test.localhost")).2.1.issued
        = (sample_ca CERT_TYPE_PUBLIC).issued ++ [cert] ∧
      (handle_cert_request 1000 (sample_ca CERT_TYPE_PUBLIC)
          (lit "test.localhost")).2.1.issued_count
        = (sample_ca CERT_TYPE_PUBLIC).issued_count + 1 ∧
      (handle_cert_request 1000 (sample_ca CERT_TYPE_PUBLIC)
          (lit "test.localhost")).2.1.ca_cert.serial = 1 + 1 :=
  ⟨⟨rfl, by norm_num⟩,
   issue_advances_by_one 1000 (sample_ca CERT_TYPE_PUBLIC) (lit "test.localhost") 1 rfl
     (by norm_num)⟩

/-! ## Verifying -/

/-- Closed form of the loop over the issued list. -/
theorem serial_issued_iff (serial : Nat) (l : List stoq_cert_t) :
    serial_issued serial l = true ↔ ∃ c ∈ l, serial = c.serial := by
  induction l with
  | nil => simp [serial_issued]
  | cons c rest ih =>
    by_cases h : serial = c.serial
    · simp [serial_issued, h]
    · simp [serial_issued, h, ih]

/-- `verify_certificate` returns `0` or `-1`. -/
theorem verify_certificate_cases (now : Int) (cert : stoq_cert_t) (ca : ca_context_t) :
    verify_certificate now cert ca = 0 ∨ verify_certificate now cert ca = -1 := by
  unfold verify_certificate
  split_ifs <;> simp

/-- C7: on an unexpired certificate of type SelfSigned, `verify_certificate`
succeeds exactly when subject and issuer are the same string, and its result is
the same for every CA context. -/
theorem verify_self_signed (now : Int) (cert : stoq_cert_t) (ca other : ca_context_t)
    (htype : cert.type = CERT_TYPE_SELF_SIGNED) (hnow : now ≤ cert.expires) :
    (verify_certificate now cert ca = 0 ↔ cstr cert.subject = cstr cert.issuer) ∧
    verify_certificate now cert ca = verify_certificate now cert other := by
  have hexp : ¬ now > cert.expires := not_lt.mpr hnow
  constructor
  · rw [← strcmp_eq_zero_iff]
    by_cases hs : strcmp cert.subject cert.issuer = 0 <;>
      simp [verify_certificate, hexp, htype, hs]
  · simp [verify_certificate, hexp, htype]

/-- Witness of C7: the sample self-signed root, at a time inside its validity,
against two different CA contexts. -/
theorem verify_self_signed_witness :
    ((sample_root CERT_TYPE_SELF_SIGNED).type = CERT_TYPE_SELF_SIGNED ∧
      (1000 : Int) ≤ (sample_root CERT_TYPE_SELF_SIGNED).expires) ∧
    (verify_certificate 1000 (sample_root CERT_TYPE_SELF_SIGNED) (sample_ca CERT_TYPE_SELF_SIGNED)
        = 0 ↔
      cstr (sample_root CERT_TYPE_SELF_SIGNED).subject
        = cstr (sample_root CERT_TYPE_SELF_SIGNED).issuer) ∧
    verify_certificate 1000 (sample_root CERT_TYPE_SELF_SIGNED) (sample_ca CERT_TYPE_SELF_SIGNED)
      = verify_certificate 1000 (sample_root CERT_TYPE_SELF_SIGNED) (sample_ca CERT_TYPE_PUBLIC) :=
  ⟨⟨rfl, by decide⟩,
   verify_self_signed 1000 (sample_root CERT_TYPE_SELF_SIGNED) (sample_ca CERT_TYPE_SELF_SIGNED)
     (sample_ca CERT_TYPE_PUBLIC) rfl (by decide)⟩

/-- C8: on an unexpired certificate of type Federated or Public whose issuer is
not the subject of the CA certificate, `verify_certificate` fails, for every
issued list. -/
theorem verify_issuer_mismatch (now : Int) (cert : stoq_cert_t) (ca : ca_context_t)
    (htype : cert.type = CERT_TYPE_FEDERATED ∨ cert.type = CERT_TYPE_PUBLIC)
    (hnow : now ≤ cert.expires)
    (hissuer : cstr cert.issuer ≠ cstr ca.ca_cert.subject) :
    verify_certificate now cert ca = -1 := by
  have hexp : ¬ now > cert.expires := not_lt.mpr hnow
  have hne : cert.type ≠ CERT_TYPE_SELF_SIGNED := by
    rcases htype with h | h <;> rw [h] <;> decide
  have hs : strcmp cert.issuer ca.ca_cert.subject ≠ 0 := by
    rw [Ne, strcmp_eq_zero_iff]; exact hissuer
  simp [verify_certificate, hexp, hne, hs]

/-- Witness of C8: a federated certificate issued by `example.org`, checked
against a CA for `localhost` whose issued list holds a certificate of the same
serial. -/
theorem verify_issuer_mismatch_witness :
    ((foreign_cert.type = CERT_TYPE_FEDERATED ∨ foreign_cert.type = CERT_TYPE_PUBLIC) ∧
      (1000 : Int) ≤ foreign_cert.expires ∧
      cstr foreign_cert.issuer ≠ cstr ledger_ca.ca_cert.subject ∧
      serial_issued foreign_cert.serial ledger_ca.issued = true) ∧
    verify_certificate 1000 foreign_cert ledger_ca = -1 :=
  ⟨⟨Or.inl rfl, by decide, by decide, by decide⟩,
   verify_issuer_mismatch 1000 foreign_cert ledger_ca (Or.inl rfl) (by decide) (by decide)⟩

/-! ## Initialising -/

/-- C9: with no persisted root, `init_certificate_authority` succeeds and the
CA it builds has a root certificate with serial 1, created at `now`, expiring
365 days later, subject and issuer the hostname, no parent signature, no
federation signatures, the type given by the mode, and an empty issued list. -/
theorem init_fresh_root (now : Int) (mem : uninit_t) (net_ctx : network_context_t) :
    (init_certificate_authority now mem net_ctx none).1 = 0 ∧
    ∃ ca, (init_certificate_authority now mem net_ctx none).2.1 = some ca ∧
      ca.ca_cert.serial = 1 ∧
      ca.ca_cert.created = now ∧
      ca.ca_cert.expires = now + 365 * 24 * 60 * 60 ∧
      ca.ca_cert.subject = cstr net_ctx.hostname ∧
      ca.ca_cert.issuer = cstr net_ctx.hostname ∧
      strcmp ca.ca_cert.subject net_ctx.hostname = 0 ∧
      strcmp ca.ca_cert.issuer net_ctx.hostname = 0 ∧
      ca.ca_cert.parent_sig = none ∧
      ca.ca_cert.sig_count = 0 ∧
      ca.ca_cert.fed_sigs = none ∧
      ca.ca_cert.type =
        (if cstr net_ctx.mode = lit "private" then CERT_TYPE_SELF_SIGNED
         else if cstr net_ctx.mode = lit "federated" then CERT_TYPE_FEDERATED
         else CERT_TYPE_PUBLIC) ∧
      ca.issued = [] := by
  have hp : cstr (lit "private") = lit "private" := by decide
  have hf : cstr (lit "federated") = lit "federated" := by decide
  refine ⟨by simp [init_certificate_authority, save_certificate], ?_⟩
  refine ⟨_, by simp [init_certificate_authority, save_certificate]; rfl, ?_⟩
  refine ⟨rfl, rfl, rfl, rfl, rfl, strcmp_strdup _, strcmp_strdup _, rfl, rfl, rfl, ?_, rfl⟩
  simp only [strcmp_eq_zero_iff, hp, hf]

/-! ## Sequences of calls: lemmas -/

theorem run_calls_nil (ca : ca_context_t) : run_calls ca [] = ca := rfl

theorem run_calls_cons (ca : ca_context_t) (c : ca_call) (rest : List ca_call) :
    run_calls ca (c :: rest) = run_calls (run_call ca c) rest := rfl

/-- One call keeps the subject and type of the CA certificate and extends the
issued list at its end. -/
theorem run_call_frame (ca : ca_context_t) (c : ca_call) :
    (run_call ca c).ca_cert.subject = ca.ca_cert.subject ∧
    (run_call ca c).ca_cert.type = ca.ca_cert.type ∧
    ∃ more, (run_call ca c).issued = ca.issued ++ more := by
  cases c with
  | issue now hostname =>
    rw [run_call, handle_cert_request_eq]
    exact ⟨rfl, rfl, _, rfl⟩
  | verify now cert => exact ⟨rfl, rfl, [], by simp [run_call]⟩

/-- A sequence of calls keeps the subject and type of the CA certificate and
extends the issued list at its end. -/
theorem run_calls_frame (ca : ca_context_t) (calls : List ca_call) :
    (run_calls ca calls).ca_cert.subject = ca.ca_cert.subject ∧
    (run_calls ca calls).ca_cert.type = ca.ca_cert.type ∧
    ∃ more, (run_calls ca calls).issued = ca.issued ++ more := by
  induction calls generalizing ca with
  | nil => exact ⟨rfl, rfl, [], by simp [run_calls_nil]⟩
  | cons c rest ih =>
    rw [run_calls_cons]
    obtain ⟨h1, h2, m1, h3⟩ := run_call_frame ca c
    obtain ⟨k1, k2, m2, k3⟩ := ih (run_call ca c)
    exact ⟨k1.trans h1, k2.trans h2, m1 ++ m2, by rw [k3, h3, List.append_assoc]⟩

/-- The serial the `i`-th later issuance assigns, from a counter `s`. -/
theorem serial_shift (s i : Nat) : (u64 (s + 1) + 1 + i) % 2 ^ 64 = (s + 1 + (i + 1)) % 2 ^ 64 := by
  unfold u64
  omega

/-- Counter and issued serials after a sequence of calls: every issuance adds
one to the counter modulo `2^64` and appends the new counter value. -/
theorem run_calls_serials (ca : ca_context_t) (calls : List ca_call) :
    (run_calls ca calls).ca_cert.serial % 2 ^ 64
      = (ca.ca_cert.serial + issue_count calls) % 2 ^ 64 ∧
    (issue_count calls = 0 → (run_calls ca calls).ca_cert.serial = ca.ca_cert.serial) ∧
    (0 < issue_count calls → (run_calls ca calls).ca_cert.serial < 2 ^ 64) ∧
    (run_calls ca calls).issued.map (fun c => c.serial)
      = ca.issued.map (fun c => c.serial) ++
        (List.range (issue_count calls)).map (fun i => (ca.ca_cert.serial + 1 + i) % 2 ^ 64) := by
  induction calls generalizing ca with
  | nil => simp [run_calls_nil, issue_count]
  | cons c rest ih =>
    rw [run_calls_cons]
    obtain ⟨h1, h2, h3, h4⟩ := ih (run_call ca c)
    cases c with
    | verify now cert =>
      simp only [run_call, issue_count] at *
      exact ⟨h1, h2, h3, h4⟩
    | issue now hostname =>
      simp only [run_call, handle_cert_request_eq, issue_count, new_cert] at *
      refine ⟨?_, ?_, ?_, ?_⟩
      · rw [h1]; unfold u64; omega
      · intro h; omega
      · intro _
        by_cases hz : issue_count rest = 0
        · rw [h2 hz]; unfold u64; omega
        · exact h3 (Nat.pos_of_ne_zero hz)
      · rw [h4, List.range_succ_eq_map, List.map_cons, List.map_map, List.map_append,
          List.append_assoc]
        congr 1
        simp only [List.map_cons, List.map_nil, List.singleton_append]
        congr 1
        apply List.map_congr_left
        intro i _
        exact serial_shift _ _

/-! ## Expiry -/

/-- A certificate just issued by a CA whose certificate is not SelfSigned
verifies against every later state of that CA, up to and including its
expiry. -/
theorem verify_new_cert (t : Int) (ca : ca_context_t) (hostname : List Nat)
    (later : List ca_call) (now : Int)
    (htype : ca.ca_cert.type ≠ CERT_TYPE_SELF_SIGNED)
    (hnow : now ≤ (new_cert t ca hostname).expires) :
    verify_certificate now (new_cert t ca hostname)
      (run_calls (handle_cert_request t ca hostname).2.1 later) = 0 := by
  obtain ⟨hsub, _, more, hiss⟩ := run_calls_frame (handle_cert_request t ca hostname).2.1 later
  obtain ⟨_, h2, _, h4⟩ := handle_cert_request_state t ca hostname
  rw [h2] at hsub
  rw [h4] at hiss
  have hexp : ¬ now > (new_cert t ca hostname).expires := not_lt.mpr hnow
  have hty : (new_cert t ca hostname).type ≠ CERT_TYPE_SELF_SIGNED := htype
  have hs : strcmp (new_cert t ca hostname).issuer
      (run_calls (handle_cert_request t ca hostname).2.1 later).ca_cert.subject = 0 := by
    rw [hsub]; exact strcmp_strdup _
  have hl : serial_issued (new_cert t ca hostname).serial
      (run_calls (handle_cert_request t ca hostname).2.1 later).issued = true := by
    rw [serial_issued_iff, hiss]
    exact ⟨new_cert t ca hostname, by simp, rfl⟩
  simp [verify_certificate, hexp, hty, hs, hl]

/-- C4, as amended: a certificate issued by a CA whose certificate is not of
type SelfSigned verifies, after any later calls on that CA, at every time up to
and including its expiry; a certificate issued by any CA fails to verify at
every time after its expiry. -/
theorem verify_issued_expiry (t : Int) (ca : ca_context_t) (hostname : List Nat)
    (later : List ca_call) (now : Int) (cert : stoq_cert_t)
    (hcert : (handle_cert_request t ca hostname).2.2 = some cert) :
    (now > cert.expires →
      verify_certificate now cert
        (run_calls (handle_cert_request t ca hostname).2.1 later) = -1) ∧
    (ca.ca_cert.type ≠ CERT_TYPE_SELF_SIGNED → now ≤ cert.expires →
      verify_certificate now cert
        (run_calls (handle_cert_request t ca hostname).2.1 later) = 0) := by
  have hc : cert = new_cert t ca hostname := by
    rw [handle_cert_request_eq] at hcert
    exact (Option.some.inj hcert).symm
  subst hc
  constructor
  · intro hexp
    simp [verify_certificate, hexp]
  · intro htype hnow
    exact verify_new_cert t ca hostname later now htype hnow

/-- Witness of C4: the sample federated CA issues at time 1000 and once more at
time 2000; the first certificate verifies at its expiry and fails one second
later. -/
theorem verify_issued_expiry_witness :
    (handle_cert_request 1000 (sample_ca CERT_TYPE_FEDERATED) (lit "test.localhost")).2.2
      = some (new_cert 1000 (sample_ca CERT_TYPE_FEDERATED) (lit "test.localhost")) ∧
    (sample_ca CERT_TYPE_FEDERATED).ca_cert.type ≠ CERT_TYPE_SELF_SIGNED ∧
    (2593000 : Int) ≤
      (new_cert 1000 (sample_ca CERT_TYPE_FEDERATED) (lit "test.localhost")).expires ∧
    verify_certificate 2593000
      (new_cert 1000 (sample_ca CERT_TYPE_FEDERATED) (lit "test.localhost"))
      (run_calls
        (handle_cert_request 1000 (sample_ca CERT_TYPE_FEDERATED) (lit "test.localhost")).2.1
        [ca_call.issue 2000 (lit "other.localhost")]) = 0 ∧
    (2593001 : Int) >
      (new_cert 1000 (sample_ca CERT_TYPE_FEDERATED) (lit "test.localhost")).expires ∧
    verify_certificate 2593001
      (new_cert 1000 (sample_ca CERT_TYPE_FEDERATED) (lit "test.localhost"))
      (run_calls
        (handle_cert_request 1000 (sample_ca CERT_TYPE_FEDERATED) (lit "test.localhost")).2.1
        [ca_call.issue 2000 (lit "other.localhost")]) = -1 :=
  ⟨rfl, by decide, by decide,
   (verify_issued_expiry 1000 (sample_ca CERT_TYPE_FEDERATED) (lit "test.localhost")
     [ca_call.issue 2000 (lit "other.localhost")] 2593000 _ rfl).2 (by decide) (by decide),
   by decide,
   (verify_issued_expiry 1000 (sample_ca CERT_TYPE_FEDERATED) (lit "test.localhost")
     [ca_call.issue 2000 (lit "other.localhost")] 2593001 _ rfl).1 (by decide)⟩

/-- Counterexample to C4 as stated: a CA initialised in federated mode issues a
certificate at time 1000; at the instant `now = expires` the certificate still
verifies. -/
theorem verify_at_expiry_succeeds :
    ∃ ca0 ca1 cert,
      (init_certificate_authority 0 zeroed (sample_ctx "federated") none).2.1 = some ca0 ∧
      handle_cert_request 1000 ca0 (lit "test.localhost") = (0, ca1, some cert) ∧
      cert.expires = 2593000 ∧
      verify_certificate 2593000 cert ca1 = 0 := by
  refine ⟨_, _, _, rfl, rfl, ?_, ?_⟩
  · decide
  · decide

/-! ## Round trip of issue and verify -/

/-- C2, the failing input: a CA freshly initialised in private mode for
`localhost` issues a certificate for `test.localhost`, and `verify_certificate`
rejects that certificate at the time of issue. -/
theorem verify_issued_private_fails :
    ∃ ca0 ca1 cert,
      (init_certificate_authority 0 zeroed (sample_ctx "private") none).2.1 = some ca0 ∧
      handle_cert_request 1000 ca0 (lit "test.localhost") = (0, ca1, some cert) ∧
      cert.type = CERT_TYPE_SELF_SIGNED ∧
      verify_certificate 1000 cert ca1 = -1 := by
  refine ⟨_, _, _, rfl, rfl, ?_, ?_⟩
  · decide
  · decide

/-- C3, the failing input: a CA freshly initialised in federated mode for
`localhost` issues a certificate for `test.localhost`; the copy of that
certificate whose subject is replaced by `tampered.localhost` still
verifies. -/
theorem verify_tampered_subject_succeeds :
    ∃ ca0 ca1 cert,
      (init_certificate_authority 0 zeroed (sample_ctx "federated") none).2.1 = some ca0 ∧
      handle_cert_request 1000 ca0 (lit "test.localhost") = (0, ca1, some cert) ∧
      cstr (lit "tampered.localhost") ≠ cstr cert.subject ∧
      verify_certificate 1000 { cert with subject := lit "tampered.localhost" } ca1 = 0 := by
  refine ⟨_, _, _, rfl, rfl, ?_, ?_⟩
  · decide
  · decide

/-- C5, the failing input: the sample root with serial `2^32` is saved and
loaded into zeroed memory; the loaded serial is 0. -/
theorem load_save_serial_truncated :
    (load_certificate zeroed
        (some (save_certificate { sample_root CERT_TYPE_PUBLIC with serial := 4294967296 }).2)).map
      (fun c => c.serial) = some 0 := by
  decide

/-! ## The issued list -/

/-- The CA context `init_certificate_authority` returns has an empty issued
list, whether the root is new or loaded. -/
theorem init_issued_empty (now : Int) (mem : uninit_t) (net_ctx : network_context_t)
    (file : Option (List Nat)) (ca0 : ca_context_t)
    (hinit : (init_certificate_authority now mem net_ctx file).2.1 = some ca0) :
    ca0.issued = [] := by
  cases file with
  | none =>
    simp [init_certificate_authority, save_certificate] at hinit
    rw [← hinit]
  | some f =>
    simp [init_certificate_authority, load_certificate] at hinit
    rw [← hinit]

theorem issue_count_replicate (n : Nat) (now : Int) (hostname : List Nat) :
    issue_count (List.replicate n (ca_call.issue now hostname)) = n := by
  induction n with
  | zero => rfl
  | succ n ih => simp [List.replicate_succ, issue_count, ih]

/-- From an empty issued list and a counter `s`, while `s` plus the number of
issuances stays below `2^64`: the counter is `s` plus that number and the
issued serials are `s + 1`, `s + 2`, ... in order. -/
theorem run_calls_serials_bounded (ca : ca_context_t) (calls : List ca_call)
    (hempty : ca.issued = [])
    (hbound : ca.ca_cert.serial + issue_count calls < 2 ^ 64) :
    (run_calls ca calls).ca_cert.serial = ca.ca_cert.serial + issue_count calls ∧
    (run_calls ca calls).issued.map (fun c => c.serial)
      = (List.range (issue_count calls)).map (fun i => ca.ca_cert.serial + 1 + i) := by
  obtain ⟨h1, h2, h3, h4⟩ := run_calls_serials ca calls
  constructor
  · by_cases hz : issue_count calls = 0
    · rw [h2 hz, hz]; rfl
    · have hlt := h3 (Nat.pos_of_ne_zero hz)
      rw [Nat.mod_eq_of_lt hlt, Nat.mod_eq_of_lt hbound] at h1
      exact h1
  · rw [h4, hempty, List.map_nil, List.nil_append]
    apply List.map_congr_left
    intro i hi
    have hi2 : i < issue_count calls := List.mem_range.mp hi
    apply Nat.mod_eq_of_lt
    omega

/-- C6, as amended: in every state reached from an initialised CA (new or
loaded root) by issue and verify calls, as long as the counter at
initialisation plus the number of issuances stays below `2^64`, the serials of
the issued list are pairwise distinct and each is at most the counter (the
serial of the CA certificate). -/
theorem ledger_invariant (now : Int) (mem : uninit_t) (net_ctx : network_context_t)
    (file : Option (List Nat)) (ca0 : ca_context_t) (calls : List ca_call)
    (hinit : (init_certificate_authority now mem net_ctx file).2.1 = some ca0)
    (hbound : ca0.ca_cert.serial + issue_count calls < 2 ^ 64) :
    (run_calls ca0 calls).issued.Pairwise (fun a b => a.serial ≠ b.serial) ∧
    ∀ c ∈ (run_calls ca0 calls).issued, c.serial ≤ (run_calls ca0 calls).ca_cert.serial := by
  have hempty := init_issued_empty now mem net_ctx file ca0 hinit
  obtain ⟨hctr, hser⟩ := run_calls_serials_bounded ca0 calls hempty hbound
  constructor
  · have hnd : ((run_calls ca0 calls).issued.map (fun c => c.serial)).Nodup := by
      rw [hser]
      apply List.Nodup.map_on _ (List.nodup_range _)
      intro x _ y _ hxy
      omega
    exact List.pairwise_map.mp hnd
  · intro c hc
    have hmem : c.serial ∈ (run_calls ca0 calls).issued.map (fun c => c.serial) :=
      List.mem_map.mpr ⟨c, hc, rfl⟩
    rw [hser] at hmem
    obtain ⟨i, hi, hic⟩ := List.mem_map.mp hmem
    have hi2 : i < issue_count calls := List.mem_range.mp hi
    rw [hctr]
    omega

/-- Witness of C6: a CA freshly initialised in public mode, after two
issuances and a verification between them. -/
theorem ledger_invariant_witness :
    ((init_certificate_authority 0 zeroed (sample_ctx "public") none).2.1
        = some (sample_ca CERT_TYPE_PUBLIC) ∧
      (sample_ca CERT_TYPE_PUBLIC).ca_cert.serial
        + issue_count
            [ca_call.issue 1000 (lit "a.localhost"),
             ca_call.verify 1500 (sample_root CERT_TYPE_PUBLIC),
             ca_call.issue 2000 (lit "b.localhost")] < 2 ^ 64) ∧
    (run_calls (sample_ca CERT_TYPE_PUBLIC)
        [ca_call.issue 1000 (lit "a.localhost"),
         ca_call.verify 1500 (sample_root CERT_TYPE_PUBLIC),
         ca_call.issue 2000 (lit "b.localhost")]).issued.Pairwise
      (fun a b => a.serial ≠ b.serial) ∧
    ∀ c ∈ (run_calls (sample_ca CERT_TYPE_PUBLIC)
        [ca_call.issue 1000 (lit "a.localhost"),
         ca_call.verify 1500 (sample_root CERT_TYPE_PUBLIC),
         ca_call.issue 2000 (lit "b.localhost")]).issued,
      c.serial ≤ (run_calls (sample_ca CERT_TYPE_PUBLIC)
        [ca_call.issue 1000 (lit "a.localhost"),
         ca_call.verify 1500 (sample_root CERT_TYPE_PUBLIC),
         ca_call.issue 2000 (lit "b.localhost")]).ca_cert.serial :=
  ⟨⟨rfl, by decide⟩,
   ledger_invariant 0 zeroed (sample_ctx "public") none (sample_ca CERT_TYPE_PUBLIC) _ rfl
     (by decide)⟩

/-- Counterexample to C6 as stated: `ca.cert` holds a root whose four serial
bytes are `FE FF FF FF` and is loaded into memory whose serial field held bytes
of value 255, so the CA starts with counter `2^64 - 2` and an empty issued
list. After two issuances the issued serials are `2^64 - 1` and 0 and the
counter is 0: the first issued certificate exceeds the counter. -/
theorem ledger_invariant_wraps_loaded :
    ∃ ca0,
      init_certificate_authority 50 full_memory (sample_ctx "public") (some high_serial_file)
        = (0, some ca0, some high_serial_file) ∧
      ca0.ca_cert.serial = 18446744073709551614 ∧
      ca0.issued = [] ∧
      (run_calls ca0 [ca_call.issue 60 (lit "a"), ca_call.issue 70 (lit "b")]).ca_cert.serial
        = 0 ∧
      (run_calls ca0 [ca_call.issue 60 (lit "a"), ca_call.issue 70 (lit "b")]).issued.map
          (fun c => c.serial)
        = [18446744073709551615, 0] ∧
      ∃ c ∈ (run_calls ca0 [ca_call.issue 60 (lit "a"), ca_call.issue 70 (lit "b")]).issued,
        ¬ c.serial ≤
          (run_calls ca0
            [ca_call.issue 60 (lit "a"), ca_call.issue 70 (lit "b")]).ca_cert.serial := by
  refine ⟨_, rfl, ?_, rfl, ?_, ?_, ?_⟩ <;> decide

/-! ## Persistence: lemmas -/

theorem le_bytes_length (w v : Nat) : (le_bytes w v).length = w := by
  induction w generalizing v with
  | zero => rfl
  | succ w ih => simp [le_bytes, ih]

theorem le_value_le_bytes (w v : Nat) : le_value (le_bytes w v) = v % 256 ^ w := by
  induction w generalizing v with
  | zero => simp [le_bytes, le_value, Nat.mod_one]
  | succ w ih =>
    simp only [le_bytes, le_value, ih, Nat.mod_mod]
    rw [pow_succ, Nat.mul_comm (256 ^ w) 256, Nat.mod_mul]

theorem le_value_append (a b : List Nat) :
    le_value (a ++ b) = le_value a + 256 ^ a.length * le_value b := by
  induction a with
  | nil => simp [le_value]
  | cons x xs ih =>
    rw [List.cons_append, le_value, ih, le_value, List.length_cons, pow_succ]
    ring

theorem le_value_lt (a : List Nat) : le_value a < 256 ^ a.length := by
  induction a with
  | nil => simp [le_value]
  | cons x xs ih =>
    simp only [le_value, List.length_cons, pow_succ]
    have : x % 256 < 256 := Nat.mod_lt _ (by norm_num)
    omega

theorem le_bytes_take (v : Nat) : (le_bytes 8 v).take 4 = le_bytes 4 v := by
  simp [le_bytes]

theorem time_value_time_bytes (t : Int) (hlo : -2 ^ 63 ≤ t) (hhi : t < 2 ^ 63) :
    time_value (time_bytes t) = t := by
  unfold time_value time_bytes
  rw [le_value_le_bytes]
  have h256 : (256 : Nat) ^ 8 = 2 ^ 64 := by norm_num
  rw [h256]
  have hnn : 0 ≤ t % 2 ^ 64 := Int.emod_nonneg _ (by norm_num)
  have hlt : t % 2 ^ 64 < 2 ^ 64 := Int.emod_lt_of_pos _ (by norm_num)
  have hmod : (t % 2 ^ 64).toNat % 2 ^ 64 = (t % 2 ^ 64).toNat := by
    apply Nat.mod_eq_of_lt
    omega
  rw [hmod]
  split_ifs with h <;> omega

theorem block_length (g : Nat → Nat) (n : Nat) : (block g n).length = n := by
  simp [block]

/-- Reading `n` bytes from a file that starts with `n` bytes `x`. -/
theorem fread_append (obj x rest : List Nat) (n : Nat) (hx : x.length = n) :
    fread obj n (x ++ rest) = (x ++ obj.drop n, rest) := by
  subst hx
  simp [fread]

/-- The bytes `save_certificate` writes for a string: the string and its
terminator. -/
theorem string_bytes (s : List Nat) : (s ++ [0]).take (strlen s + 1) = cstr s ++ [0] := by
  induction s with
  | nil => simp [strlen, cstr]
  | cons b s ih =>
    by_cases hb : b = 0
    · subst hb; simp [strlen, cstr_cons_zero]
    · simp only [strlen, cstr_cons_ne b s hb, List.length_cons, List.cons_append,
        List.take_succ_cons]
      simp only [strlen] at ih
      rw [ih]

theorem cstr_append_zero (s rest : List Nat) : cstr (cstr s ++ 0 :: rest) = cstr s := by
  induction s with
  | nil => simp [cstr]
  | cons b s ih =>
    by_cases hb : b = 0
    · subst hb; simp [cstr_cons_zero, cstr]
    · simp [cstr_cons_ne, hb, ih]


/-- The file `save_certificate` writes, for strings shorter than `2^64`. -/
theorem save_certificate_file (c : stoq_cert_t)
    (hsub : strlen c.subject + 1 < 2 ^ 64) (hiss : strlen c.issuer + 1 < 2 ^ 64) :
    (save_certificate c).2 =
      le_bytes 4 c.serial ++ (time_bytes c.created ++ (time_bytes c.expires ++
        (le_bytes 4 c.type ++ (le_bytes 8 (strlen c.subject + 1) ++ ((cstr c.subject ++ [0]) ++
          (le_bytes 8 (strlen c.issuer + 1) ++ (cstr c.issuer ++ [0]))))))) := by
  have h8 : ∀ v, (le_bytes 8 v).take 8 = le_bytes 8 v := fun v =>
    List.take_of_length_le (le_of_eq (le_bytes_length 8 v))
  have h4 : ∀ v, (le_bytes 4 v).take 4 = le_bytes 4 v := fun v =>
    List.take_of_length_le (le_of_eq (le_bytes_length 4 v))
  have u1 : u64 (strlen c.subject + 1) = strlen c.subject + 1 := Nat.mod_eq_of_lt hsub
  have u2 : u64 (strlen c.issuer + 1) = strlen c.issuer + 1 := Nat.mod_eq_of_lt hiss
  simp only [save_certificate, fwrite, time_bytes, u1, u2, h8, h4, le_bytes_take, string_bytes,
    List.nil_append, List.append_assoc]

/-- The certificate `load_certificate` builds from the file `save_certificate`
wrote. -/
theorem load_save_eq (mem : uninit_t) (c : stoq_cert_t)
    (hsub : strlen c.subject + 1 < 2 ^ 64) (hiss : strlen c.issuer + 1 < 2 ^ 64) :
    load_certificate mem (some (save_certificate c).2) =
      some
        { serial := le_value (le_bytes 4 c.serial ++ (block mem.serial 8).drop 4)
          created := time_value (time_bytes c.created)
          expires := time_value (time_bytes c.expires)
          type := le_value (le_bytes 4 c.type)
          subject := cstr c.subject ++ [0]
          issuer := cstr c.issuer ++ [0]
          keys := falcon_keys_zero
          parent_sig := none
          sig_count := 0
          fed_sigs := none } := by
  have hb8 : ∀ g, (block g 8).drop 8 = [] := fun g =>
    List.drop_of_length_le (le_of_eq (block_length g 8))
  have hb4 : ∀ g, (block g 4).drop 4 = [] := fun g =>
    List.drop_of_length_le (le_of_eq (block_length g 4))
  have hl8 : ∀ v, (le_bytes 8 v).drop 8 = [] := fun v =>
    List.drop_of_length_le (le_of_eq (le_bytes_length 8 v))
  have h64 : (256 : Nat) ^ 8 = 2 ^ 64 := by norm_num
  have hv : ∀ n, n < 2 ^ 64 → le_value (le_bytes 8 n) = n := fun n hn => by
    rw [le_value_le_bytes, h64]; exact Nat.mod_eq_of_lt hn
  have hlen : ∀ s : List Nat, (cstr s ++ [0]).length = strlen s + 1 := fun s => by
    simp [strlen]
  have hbs : ∀ (g : Nat → Nat) (s : List Nat),
      (block g (strlen s + 1)).drop (strlen s + 1) = [] :=
    fun g s => List.drop_of_length_le (le_of_eq (block_length g _))
  have hfin : fread (block mem.issuer (strlen c.issuer + 1)) (strlen c.issuer + 1)
      (cstr c.issuer ++ [0]) = (cstr c.issuer ++ [0], []) := by
    have := fread_append (block mem.issuer (strlen c.issuer + 1)) (cstr c.issuer ++ [0]) []
      (strlen c.issuer + 1) (hlen _)
    rw [List.append_nil, hbs, List.append_nil] at this
    exact this
  rw [save_certificate_file c hsub hiss]
  simp only [load_certificate]
  rw [fread_append _ (le_bytes 4 c.serial) _ 4 (le_bytes_length _ _)]
  simp only []
  rw [fread_append _ (time_bytes c.created) _ 8 (le_bytes_length _ _)]
  simp only []
  rw [fread_append _ (time_bytes c.expires) _ 8 (le_bytes_length _ _)]
  simp only []
  rw [fread_append _ (le_bytes 4 c.type) _ 4 (le_bytes_length _ _)]
  simp only []
  rw [fread_append _ (le_bytes 8 (strlen c.subject + 1)) _ 8 (le_bytes_length _ _)]
  simp only [hb8, hb4, List.append_nil, hv _ hsub]
  rw [fread_append _ (cstr c.subject ++ [0]) _ (strlen c.subject + 1) (hlen _)]
  simp only []
  rw [fread_append _ (le_bytes 8 (strlen c.issuer + 1)) _ 8 (le_bytes_length _ _)]
  simp only [hl8, hbs, List.append_nil, hv _ hiss, hfin]

/-- What `load_certificate` returns on the file `save_certificate` wrote: every
persisted field is read back, except that only the low 32 bits of the serial
come from the file; its high 32 bits are the prior content of memory. -/
theorem load_save_fields (mem : uninit_t) (c : stoq_cert_t)
    (hc1 : -2 ^ 63 ≤ c.created) (hc2 : c.created < 2 ^ 63)
    (he1 : -2 ^ 63 ≤ c.expires) (he2 : c.expires < 2 ^ 63)
    (htype : c.type < 2 ^ 32)
    (hsub : strlen c.subject + 1 < 2 ^ 64) (hiss : strlen c.issuer + 1 < 2 ^ 64) :
    ∃ l, load_certificate mem (some (save_certificate c).2) = some l ∧
      l.serial = c.serial % 2 ^ 32 + 2 ^ 32 * le_value ((block mem.serial 8).drop 4) ∧
      l.created = c.created ∧ l.expires = c.expires ∧ l.type = c.type ∧
      cstr l.subject = cstr c.subject ∧ cstr l.issuer = cstr c.issuer := by
  have h32 : (256 : Nat) ^ 4 = 2 ^ 32 := by norm_num
  have hcr := time_value_time_bytes c.created hc1 hc2
  have hex := time_value_time_bytes c.expires he1 he2
  have hty : le_value (le_bytes 4 c.type) = c.type := by
    rw [le_value_le_bytes, h32]; exact Nat.mod_eq_of_lt htype
  have hse : le_value (le_bytes 4 c.serial ++ (block mem.serial 8).drop 4)
      = c.serial % 2 ^ 32 + 2 ^ 32 * le_value ((block mem.serial 8).drop 4) := by
    rw [le_value_append, le_value_le_bytes, le_bytes_length, h32]
  refine ⟨_, load_save_eq mem c hsub hiss, ?_⟩
  dsimp only
  exact ⟨hse, hcr, hex, hty, cstr_append_zero _ _, cstr_append_zero _ _⟩

/-! ## Validity window and type of the certificates produced -/

/-- C11: a certificate returned by `handle_cert_request` expires 30 days after
its creation, so after it, and has the type of the CA certificate; a root built
by `init_certificate_authority` when no root is persisted expires 365 days
after its creation, so after it. -/
theorem produced_validity (now : Int) (ca : ca_context_t) (hostname : List Nat) (mem : uninit_t)
    (net_ctx : network_context_t) :
    (∃ cert, (handle_cert_request now ca hostname).2.2 = some cert ∧
      cert.created = now ∧
      cert.expires = cert.created + 30 * 24 * 60 * 60 ∧
      cert.expires > cert.created ∧
      cert.type = ca.ca_cert.type) ∧
    (∃ root, (init_certificate_authority now mem net_ctx none).2.1 = some root ∧
      root.ca_cert.created = now ∧
      root.ca_cert.expires = root.ca_cert.created + 365 * 24 * 60 * 60 ∧
      root.ca_cert.expires > root.ca_cert.created) := by
  constructor
  · rw [handle_cert_request_eq]
    refine ⟨_, rfl, rfl, rfl, ?_, rfl⟩
    show now + 30 * 24 * 60 * 60 > now
    omega
  · obtain ⟨_, ca0, h0, _, hc, he, _⟩ := init_fresh_root now mem net_ctx
    refine ⟨ca0, h0, hc, ?_, ?_⟩
    · rw [he, hc]
    · rw [he, hc]; omega

/-- C12, the failing input: a CA freshly initialised in private mode for
`localhost` issues for `test.localhost` a certificate of type SelfSigned whose
subject `test.localhost` is not its issuer `localhost`. -/
theorem issued_self_signed_subject_differs :
    ∃ ca0 ca1 cert,
      (init_certificate_authority 0 zeroed (sample_ctx "private") none).2.1 = some ca0 ∧
      handle_cert_request 1000 ca0 (lit "test.localhost") = (0, ca1, some cert) ∧
      cert.type = CERT_TYPE_SELF_SIGNED ∧
      cert.subject = lit "test.localhost" ∧
      cert.issuer = lit "localhost" ∧
      strcmp cert.subject cert.issuer ≠ 0 := by
  refine ⟨_, _, _, rfl, rfl, ?_, ?_, ?_, ?_⟩ <;> decide

/-! ## The persisted file -/

/-- C13: two certificates that agree on serial, created, expires, type, subject
and issuer are written as the same file, whatever their key material, parent
signature and federation signatures. -/
theorem save_ignores_keys (c d : stoq_cert_t)
    (hserial : c.serial = d.serial) (hcreated : c.created = d.created)
    (hexpires : c.expires = d.expires) (htype : c.type = d.type)
    (hsubject : c.subject = d.subject) (hissuer : c.issuer = d.issuer) :
    save_certificate c = save_certificate d := by
  simp only [save_certificate, hserial, hcreated, hexpires, htype, hsubject, hissuer]

/-- Witness of C13: the sample public root with zeroed keys and with key
material, a parent signature and a federation signature. -/
theorem save_ignores_keys_witness :
    ((sample_root CERT_TYPE_PUBLIC).serial = keyed_root.serial ∧
      (sample_root CERT_TYPE_PUBLIC).created = keyed_root.created ∧
      (sample_root CERT_TYPE_PUBLIC).expires = keyed_root.expires ∧
      (sample_root CERT_TYPE_PUBLIC).type = keyed_root.type ∧
      (sample_root CERT_TYPE_PUBLIC).subject = keyed_root.subject ∧
      (sample_root CERT_TYPE_PUBLIC).issuer = keyed_root.issuer ∧
      (sample_root CERT_TYPE_PUBLIC).keys.private_key ≠ keyed_root.keys.private_key) ∧
    save_certificate (sample_root CERT_TYPE_PUBLIC) = save_certificate keyed_root :=
  ⟨⟨rfl, rfl, rfl, rfl, rfl, rfl, by decide⟩,
   save_ignores_keys (sample_root CERT_TYPE_PUBLIC) keyed_root rfl rfl rfl rfl rfl rfl⟩


/-- The bytes of an unsigned integer of `w` bytes depend on its value modulo
`256^w` only. -/
theorem le_bytes_mod (w v : Nat) : le_bytes w (v % 256 ^ w) = le_bytes w v := by
  induction w generalizing v with
  | zero => rfl
  | succ w ih =>
    have h1 : v % 256 ^ (w + 1) % 256 = v % 256 :=
      Nat.mod_mod_of_dvd v (Dvd.intro_left (256 ^ w) rfl)
    have h2 : v % 256 ^ (w + 1) / 256 = v / 256 % 256 ^ w := by
      rw [pow_succ, Nat.mul_comm (256 ^ w) 256, Nat.mod_mul_right_div_self]
    simp only [le_bytes, h1, h2, ih]

theorem time_bytes_length (t : Int) : (time_bytes t).length = 8 :=
  le_bytes_length 8 _

/-- C14: the file `save_certificate` writes is, in this order and with nothing
between them: the low 32 bits of the serial in 4 bytes, created and expires in
8 bytes each, the type in 4 bytes, the length of the subject plus one in 8
bytes, the subject and a zero byte, the length of the issuer plus one in 8
bytes, the issuer and a zero byte; and a certificate whose serial agrees
modulo `2^32` and whose other persisted fields agree is written as the same
file. The string lengths are those a `size_t` holds. -/
theorem save_certificate_layout (c d : stoq_cert_t)
    (hsub : strlen c.subject + 1 < 2 ^ 64) (hiss : strlen c.issuer + 1 < 2 ^ 64) :
    (save_certificate c).1 = 0 ∧
    (save_certificate c).2 =
      le_bytes 4 (c.serial % 2 ^ 32) ++ time_bytes c.created ++ time_bytes c.expires ++
        le_bytes 4 c.type ++
        le_bytes 8 (strlen c.subject + 1) ++ (cstr c.subject ++ [0]) ++
        le_bytes 8 (strlen c.issuer + 1) ++ (cstr c.issuer ++ [0]) ∧
    (le_bytes 4 (c.serial % 2 ^ 32)).length = 4 ∧
    le_value (le_bytes 4 (c.serial % 2 ^ 32)) = c.serial % 2 ^ 32 ∧
    (time_bytes c.created).length = 8 ∧
    (time_bytes c.expires).length = 8 ∧
    (le_bytes 4 c.type).length = 4 ∧
    (le_bytes 8 (strlen c.subject + 1)).length = 8 ∧
    le_value (le_bytes 8 (strlen c.subject + 1)) = strlen c.subject + 1 ∧
    (le_bytes 8 (strlen c.issuer + 1)).length = 8 ∧
    le_value (le_bytes 8 (strlen c.issuer + 1)) = strlen c.issuer + 1 ∧
    (save_certificate c).2.length
      = 4 + 8 + 8 + 4 + 8 + (strlen c.subject + 1) + 8 + (strlen c.issuer + 1) ∧
    (d.serial % 2 ^ 32 = c.serial % 2 ^ 32 → d.created = c.created → d.expires = c.expires →
      d.type = c.type → d.subject = c.subject → d.issuer = c.issuer →
      save_certificate d = save_certificate c) := by
  have h32 : (256 : Nat) ^ 4 = 2 ^ 32 := by norm_num
  have h64 : (256 : Nat) ^ 8 = 2 ^ 64 := by norm_num
  have hser : ∀ v : Nat, le_bytes 4 (v % 2 ^ 32) = le_bytes 4 v := fun v => by
    rw [← h32]; exact le_bytes_mod 4 v
  have hfile := save_certificate_file c hsub hiss
  have hlen : ∀ s : List Nat, (cstr s ++ [0]).length = strlen s + 1 := fun s => by
    simp [strlen]
  refine ⟨rfl, ?_, le_bytes_length _ _, ?_, time_bytes_length _, time_bytes_length _,
    le_bytes_length _ _, le_bytes_length _ _, ?_, le_bytes_length _ _, ?_, ?_, ?_⟩
  · rw [hfile, hser]; simp only [List.append_assoc]
  · rw [le_value_le_bytes, h32, Nat.mod_mod]
  · rw [le_value_le_bytes, h64]; exact Nat.mod_eq_of_lt hsub
  · rw [le_value_le_bytes, h64]; exact Nat.mod_eq_of_lt hiss
  · rw [hfile]
    simp only [List.length_append, le_bytes_length, time_bytes_length, hlen]
    omega
  · intro h1 h2 h3 h4 h5 h6
    have hs : (le_bytes 8 d.serial).take 4 = (le_bytes 8 c.serial).take 4 := by
      rw [le_bytes_take, le_bytes_take, ← hser d.serial, ← hser c.serial, h1]
    simp only [save_certificate, fwrite, h2, h3, h4, h5, h6, hs]

/-- Witness of C14: the sample public root, and the same certificate with
serial `2^32 + 1`. -/
theorem save_certificate_layout_witness :
    (strlen (sample_root CERT_TYPE_PUBLIC).subject + 1 < 2 ^ 64 ∧
      strlen (sample_root CERT_TYPE_PUBLIC).issuer + 1 < 2 ^ 64) ∧
    (save_certificate (sample_root CERT_TYPE_PUBLIC)).2 =
      [1, 0, 0, 0] ++ [0, 0, 0, 0, 0, 0, 0, 0] ++ [128, 51, 225, 1, 0, 0, 0, 0] ++
        [2, 0, 0, 0] ++
        [10, 0, 0, 0, 0, 0, 0, 0] ++ (lit "localhost" ++ [0]) ++
        [10, 0, 0, 0, 0, 0, 0, 0] ++ (lit "localhost" ++ [0]) ∧
    save_certificate { sample_root CERT_TYPE_PUBLIC with serial := 4294967297 }
      = save_certificate (sample_root CERT_TYPE_PUBLIC) :=
  ⟨⟨by decide, by decide⟩,
   (save_certificate_layout (sample_root CERT_TYPE_PUBLIC)
      { sample_root CERT_TYPE_PUBLIC with serial := 4294967297 }
      (by decide) (by decide)).2.1.trans (by decide),
   (save_certificate_layout (sample_root CERT_TYPE_PUBLIC)
      { sample_root CERT_TYPE_PUBLIC with serial := 4294967297 }
      (by decide) (by decide)).2.2.2.2.2.2.2.2.2.2.2.2
      (by decide) rfl rfl rfl rfl rfl⟩

/-! ## Loading -/

/-- C15: a certificate returned by `load_certificate` has no parent signature,
no federation signatures and key material that is zero in every byte. -/
theorem load_clears_unpersisted (mem : uninit_t) (file : Option (List Nat)) (cert : stoq_cert_t)
    (hload : load_certificate mem file = some cert) :
    cert.parent_sig = none ∧ cert.sig_count = 0 ∧ cert.fed_sigs = none ∧
    cert.keys.public_key = List.replicate 1793 0 ∧
    cert.keys.private_key = List.replicate 2305 0 ∧
    cert.keys.signature = List.replicate 1330 0 := by
  cases file with
  | none => simp [load_certificate] at hload
  | some f =>
    simp only [load_certificate, Option.some.injEq] at hload
    rw [← hload]
    exact ⟨rfl, rfl, rfl, rfl, rfl, rfl⟩

/-- Witness of C15: the file of the sample root that carries key material,
loaded into memory with stale bytes. -/
theorem load_clears_unpersisted_witness :
    ∃ cert,
      load_certificate stale_memory (some (save_certificate keyed_root).2) = some cert ∧
      cert.parent_sig = none ∧ cert.sig_count = 0 ∧ cert.fed_sigs = none ∧
      cert.keys.public_key = List.replicate 1793 0 ∧
      cert.keys.private_key = List.replicate 2305 0 ∧
      cert.keys.signature = List.replicate 1330 0 :=
  ⟨_, rfl, load_clears_unpersisted stale_memory (some (save_certificate keyed_root).2) _ rfl⟩

/-- With the certificate block and the two string lengths served,
`load_certificate_malloc` returns what `load_certificate` returns. -/
theorem load_certificate_malloc_served (heap : malloc_t) (mem : uninit_t) (f : List Nat)
    (hcert : heap.cert = true)
    (hsubject : (load_lengths mem f).1 = 0 ∨ heap.block (load_lengths mem f).1 = true)
    (hissuer : (load_lengths mem f).2 = 0 ∨ heap.block (load_lengths mem f).2 = true) :
    load_certificate_malloc heap mem (some f)
      = load_outcome.returned (load_certificate mem (some f)) := by
  have h1 : ¬ ((load_lengths mem f).1 ≠ 0 ∧ heap.block (load_lengths mem f).1 = false) := by
    rintro ⟨hne, hb⟩
    rcases hsubject with h | h
    · exact hne h
    · rw [h] at hb; exact Bool.noConfusion hb
  have h2 : ¬ ((load_lengths mem f).2 ≠ 0 ∧ heap.block (load_lengths mem f).2 = false) := by
    rintro ⟨hne, hb⟩
    rcases hissuer with h | h
    · exact hne h
    · rw [h] at hb; exact Bool.noConfusion hb
  simp only [load_lengths] at h1 h2
  simp only [load_certificate_malloc, load_certificate, hcert, Bool.true_eq_false, if_false,
    if_neg h1, if_neg h2]

/-- C16, as amended: `load_certificate` returns no certificate when the file
cannot be opened, and on a file that can be opened only when `malloc` refuses
the block of the certificate. It checks nothing of the content: whatever the
file holds, when `malloc` serves the block of the certificate and the two
string lengths read, the call returns a certificate; when `malloc` refuses the
subject length, the call does not return NULL either. -/
theorem load_certificate_unchecked (heap : malloc_t) (mem : uninit_t) (f : List Nat) :
    load_certificate_malloc heap mem none = load_outcome.returned none ∧
    (load_certificate_malloc heap mem (some f) = load_outcome.returned none ↔
      heap.cert = false) ∧
    (heap.cert = true →
      ((load_lengths mem f).1 = 0 ∨ heap.block (load_lengths mem f).1 = true) →
      ((load_lengths mem f).2 = 0 ∨ heap.block (load_lengths mem f).2 = true) →
      ∃ cert, load_certificate_malloc heap mem (some f) = load_outcome.returned (some cert) ∧
        load_certificate mem (some f) = some cert) ∧
    (heap.cert = true → (load_lengths mem f).1 ≠ 0 →
      heap.block (load_lengths mem f).1 = false →
      load_certificate_malloc heap mem (some f) = load_outcome.undefined) := by
  refine ⟨rfl, ?_, ?_, ?_⟩
  · constructor
    · intro h
      by_contra hc
      have hc1 : heap.cert = true := by
        cases hx : heap.cert with
        | true => rfl
        | false => exact absurd hx hc
      simp only [load_certificate_malloc, hc1, Bool.true_eq_false, if_false] at h
      split_ifs at h
      simp at h
    · intro hc
      simp only [load_certificate_malloc, hc, if_true]
  · intro hcert hsubject hissuer
    rw [load_certificate_malloc_served heap mem f hcert hsubject hissuer]
    exact ⟨_, rfl, rfl⟩
  · intro hcert hne hrefused
    simp only [load_lengths] at hne hrefused
    simp only [load_certificate_malloc, hcert, Bool.true_eq_false, if_false,
      if_pos (And.intro hne hrefused)]

/-- Witness of C16: a file that ends two bytes into a subject of announced
length 5 is loaded into stale memory, with a `malloc` that serves blocks of up
to `2^20` bytes. -/
theorem load_certificate_unchecked_witness :
    (small_heap.cert = true ∧
      ((load_lengths stale_memory short_file).1 = 0 ∨
        small_heap.block (load_lengths stale_memory short_file).1 = true) ∧
      ((load_lengths stale_memory short_file).2 = 0 ∨
        small_heap.block (load_lengths stale_memory short_file).2 = true)) ∧
    (load_lengths stale_memory short_file).1 = 5 ∧
    ∃ cert,
      load_certificate_malloc small_heap stale_memory (some short_file)
        = load_outcome.returned (some cert) ∧
      load_certificate stale_memory (some short_file) = some cert :=
  ⟨⟨rfl, by decide, by decide⟩, by decide,
   (load_certificate_unchecked small_heap stale_memory short_file).2.2.1 rfl (by decide)
     (by decide)⟩

/-- Counterexample to C16 as stated: on an empty file, which is cut before the
first fixed field, `load_certificate` returns a certificate whose serial is the
prior content of the memory, eight bytes of value 7; and on a file whose
subject length prefix, 5, exceeds the 2 bytes that follow it,
`load_certificate` returns a certificate too. -/
theorem load_truncated_returns :
    (∃ cert,
      load_certificate stale_memory (some []) = some cert ∧
      cert.serial = 506381209866536711 ∧ cert.subject = [] ∧ cert.issuer = []) ∧
    (∃ cert,
      load_certificate zeroed
        (some ([1, 0, 0, 0] ++ [0, 0, 0, 0, 0, 0, 0, 0] ++ [0, 0, 0, 0, 0, 0, 0, 0] ++
          [2, 0, 0, 0] ++ [5, 0, 0, 0, 0, 0, 0, 0] ++ [97, 0])) = some cert ∧
      cert.serial = 1 ∧ cert.type = CERT_TYPE_PUBLIC ∧ cert.subject = [97, 0, 0, 0, 0]) := by
  refine ⟨⟨_, rfl, ?_, ?_, ?_⟩, ⟨_, rfl, ?_, ?_, ?_⟩⟩ <;> decide


/-! ## Key material and signatures -/

/-- The root built when no root is persisted has zeroed key material. -/
theorem init_keys_zero (now : Int) (mem : uninit_t) (net_ctx : network_context_t) :
    ∃ ca, (init_certificate_authority now mem net_ctx none).2.1 = some ca ∧
      ca.ca_cert.keys = falcon_keys_zero := by
  refine ⟨_, by simp [init_certificate_authority, save_certificate]; rfl, rfl⟩

/-- C17, the failing input: after `init_certificate_authority` in private mode
for `localhost` with no persisted root, every byte of the public key and of the
private key of the root is zero. -/
theorem init_keys_all_zero :
    (init_certificate_authority 1000 zeroed (sample_ctx "private") none).1 = 0 ∧
    ∃ ca,
      (init_certificate_authority 1000 zeroed (sample_ctx "private") none).2.1 = some ca ∧
      ca.ca_cert.keys.public_key.length = 1793 ∧
      (∀ b ∈ ca.ca_cert.keys.public_key, b = 0) ∧
      ca.ca_cert.keys.private_key.length = 2305 ∧
      (∀ b ∈ ca.ca_cert.keys.private_key, b = 0) := by
  refine ⟨rfl, ?_⟩
  obtain ⟨ca, hca, hkeys⟩ := init_keys_zero 1000 zeroed (sample_ctx "private")
  refine ⟨ca, hca, ?_, ?_, ?_, ?_⟩
  · rw [hkeys]; exact List.length_replicate 1793 0
  · rw [hkeys]; intro b hb; exact List.eq_of_mem_replicate hb
  · rw [hkeys]; exact List.length_replicate 2305 0
  · rw [hkeys]; intro b hb; exact List.eq_of_mem_replicate hb

/-- C18, the failing input: the certificate a CA freshly initialised in
federated mode for `localhost` issues for `test.localhost` has a signature
buffer that is zero in every byte and no parent signature. -/
theorem issued_signature_all_zero :
    ∃ ca0 ca1 cert,
      (init_certificate_authority 0 zeroed (sample_ctx "federated") none).2.1 = some ca0 ∧
      handle_cert_request 1000 ca0 (lit "test.localhost") = (0, ca1, some cert) ∧
      cert.keys.signature.length = 1330 ∧
      (∀ b ∈ cert.keys.signature, b = 0) ∧
      cert.parent_sig = none := by
  refine ⟨_, _, _, rfl, rfl, ?_, ?_, rfl⟩
  · exact List.length_replicate 1330 0
  · intro b hb; exact List.eq_of_mem_replicate hb

/-! ## End-to-end scenarios -/

/-- C19: a CA initialised in mode `private` with no persisted root has a root
certificate of type SelfSigned whose subject and issuer are the hostname, and
the root verifies against the CA at every time up to its expiry. -/
theorem scenario_private_root (t0 : Int) (mem : uninit_t) (net_ctx : network_context_t)
    (now : Int)
    (hmode : cstr net_ctx.mode = lit "private")
    (hnow : now ≤ t0 + 365 * 24 * 60 * 60) :
    (init_certificate_authority t0 mem net_ctx none).1 = 0 ∧
    ∃ ca, (init_certificate_authority t0 mem net_ctx none).2.1 = some ca ∧
      ca.ca_cert.type = CERT_TYPE_SELF_SIGNED ∧
      ca.ca_cert.subject = cstr net_ctx.hostname ∧
      ca.ca_cert.issuer = cstr net_ctx.hostname ∧
      ca.ca_cert.created = t0 ∧
      ca.ca_cert.expires = t0 + 365 * 24 * 60 * 60 ∧
      verify_certificate now ca.ca_cert ca = 0 := by
  obtain ⟨hst, ca, hca, _, hcr, hex, hsu, his, _, _, _, _, _, hty, _⟩ :=
    init_fresh_root t0 mem net_ctx
  rw [if_pos hmode] at hty
  refine ⟨hst, ca, hca, hty, hsu, his, hcr, hex, ?_⟩
  have hexp : ¬ now > ca.ca_cert.expires := by rw [hex]; exact not_lt.mpr hnow
  have hs : strcmp ca.ca_cert.subject ca.ca_cert.issuer = 0 := by
    rw [strcmp_eq_zero_iff, hsu, his]
  simp [verify_certificate, hexp, hty, hs]

/-- Witness of C19: `localhost` in private mode, initialised at time 0 and
verified at the last second of the validity of the root. -/
theorem scenario_private_root_witness :
    (cstr (sample_ctx "private").mode = lit "private" ∧
      (31536000 : Int) ≤ 0 + 365 * 24 * 60 * 60) ∧
    (init_certificate_authority 0 zeroed (sample_ctx "private") none).1 = 0 ∧
    ∃ ca, (init_certificate_authority 0 zeroed (sample_ctx "private") none).2.1 = some ca ∧
      ca.ca_cert.type = CERT_TYPE_SELF_SIGNED ∧
      ca.ca_cert.subject = cstr (sample_ctx "private").hostname ∧
      ca.ca_cert.issuer = cstr (sample_ctx "private").hostname ∧
      ca.ca_cert.created = 0 ∧
      ca.ca_cert.expires = 0 + 365 * 24 * 60 * 60 ∧
      verify_certificate 31536000 ca.ca_cert ca = 0 :=
  ⟨⟨by decide, by decide⟩,
   scenario_private_root 0 zeroed (sample_ctx "private") 31536000 (by decide) (by decide)⟩

/-- C20: a CA initialised in mode `federated` with no persisted root issues,
for every hostname, a certificate of type Federated whose issuer is the subject
of the root, and that certificate verifies against the CA at every time up to
its expiry. -/
theorem scenario_federated_issue (t0 : Int) (mem : uninit_t) (net_ctx : network_context_t)
    (t : Int) (hostname : List Nat) (now : Int)
    (hmode : cstr net_ctx.mode = lit "federated")
    (hnow : now ≤ t + 30 * 24 * 60 * 60) :
    ∃ ca0 ca1 cert,
      (init_certificate_authority t0 mem net_ctx none).2.1 = some ca0 ∧
      handle_cert_request t ca0 hostname = (0, ca1, some cert) ∧
      cert.type = CERT_TYPE_FEDERATED ∧
      cert.issuer = ca0.ca_cert.subject ∧
      strcmp cert.issuer ca0.ca_cert.subject = 0 ∧
      cert.expires = t + 30 * 24 * 60 * 60 ∧
      verify_certificate now cert ca1 = 0 := by
  obtain ⟨_, ca0, hca, _, _, _, hsu, _, _, _, _, _, _, hty, _⟩ :=
    init_fresh_root t0 mem net_ctx
  have hp : cstr net_ctx.mode ≠ lit "private" := by rw [hmode]; decide
  rw [if_neg hp, if_pos hmode] at hty
  have hne : ca0.ca_cert.type ≠ CERT_TYPE_SELF_SIGNED := by rw [hty]; decide
  have hv := verify_new_cert t ca0 hostname [] now hne hnow
  rw [run_calls_nil] at hv
  refine ⟨ca0, (handle_cert_request t ca0 hostname).2.1, new_cert t ca0 hostname, hca, ?_, hty,
    ?_, strcmp_strdup _, rfl, hv⟩
  · rw [handle_cert_request_eq]
  · show cstr ca0.ca_cert.subject = ca0.ca_cert.subject
    rw [hsu]; exact cstr_idem _

/-- Witness of C20: `localhost` in federated mode issues for `test.localhost`
at time 1000; the certificate is verified at its expiry. -/
theorem scenario_federated_issue_witness :
    (cstr (sample_ctx "federated").mode = lit "federated" ∧
      (2593000 : Int) ≤ 1000 + 30 * 24 * 60 * 60) ∧
    ∃ ca0 ca1 cert,
      (init_certificate_authority 0 zeroed (sample_ctx "federated") none).2.1 = some ca0 ∧
      handle_cert_request 1000 ca0 (lit "test.localhost") = (0, ca1, some cert) ∧
      cert.type = CERT_TYPE_FEDERATED ∧
      cert.issuer = ca0.ca_cert.subject ∧
      strcmp cert.issuer ca0.ca_cert.subject = 0 ∧
      cert.expires = 1000 + 30 * 24 * 60 * 60 ∧
      verify_certificate 2593000 cert ca1 = 0 :=
  ⟨⟨by decide, by decide⟩,
   scenario_federated_issue 0 zeroed (sample_ctx "federated") 1000 (lit "test.localhost") 2593000
     (by decide) (by decide)⟩

/-! ## Federation signatures: properties -/

/-- C21: `add_federation_signature` succeeds; the federation signatures of the
certificate afterwards are those before followed by the new signature, which is
their last element; their count grows by one; serial, issuer, subject, type,
created and expires are unchanged; and on a certificate just issued the count
goes from 0 to 1. -/
theorem add_federation_signature_appends (cert : stoq_cert_t) (signature : List Nat)
    (now : Int) (ca : ca_context_t) (hostname : List Nat) :
    (add_federation_signature cert signature).1 = 0 ∧
    (add_federation_signature cert signature).2.fed_sigs
      = some (cert.fed_sigs.getD [] ++ [signature]) ∧
    ((add_federation_signature cert signature).2.fed_sigs.getD []).getLast? = some signature ∧
    ((add_federation_signature cert signature).2.fed_sigs.getD []).length
      = (cert.fed_sigs.getD []).length + 1 ∧
    (add_federation_signature cert signature).2.sig_count = cert.sig_count + 1 ∧
    (add_federation_signature cert signature).2.serial = cert.serial ∧
    (add_federation_signature cert signature).2.issuer = cert.issuer ∧
    (add_federation_signature cert signature).2.subject = cert.subject ∧
    (add_federation_signature cert signature).2.type = cert.type ∧
    (add_federation_signature cert signature).2.created = cert.created ∧
    (add_federation_signature cert signature).2.expires = cert.expires ∧
    (new_cert now ca hostname).sig_count = 0 ∧
    (add_federation_signature (new_cert now ca hostname) signature).2.sig_count = 1 ∧
    (add_federation_signature (new_cert now ca hostname) signature).2.fed_sigs
      = some [signature] := by
  refine ⟨rfl, rfl, ?_, ?_, rfl, rfl, rfl, rfl, rfl, rfl, rfl, rfl, rfl, rfl⟩
  · simp [add_federation_signature]
  · simp [add_federation_signature]

/-! ## Verification by ledger membership -/

/-- C28: on an unexpired certificate of type Federated or Public whose issuer
is the subject of the CA certificate, `verify_certificate` succeeds exactly
when the serial is the serial of an entry of the issued list, and the result is
the same whatever the subject, the key material, the parent signature and the
federation signatures of the certificate. -/
theorem verify_ledger_membership (now : Int) (cert : stoq_cert_t) (ca : ca_context_t)
    (htype : cert.type = CERT_TYPE_FEDERATED ∨ cert.type = CERT_TYPE_PUBLIC)
    (hnow : now ≤ cert.expires)
    (hissuer : cstr cert.issuer = cstr ca.ca_cert.subject) :
    (verify_certificate now cert ca = 0 ↔ ∃ c ∈ ca.issued, cert.serial = c.serial) ∧
    ∀ (subject : List Nat) (keys : falcon_keys_t) (parent_sig : Option (List Nat))
      (sig_count : Nat) (fed_sigs : Option (List (List Nat))),
      verify_certificate now
          { cert with subject := subject, keys := keys, parent_sig := parent_sig,
                      sig_count := sig_count, fed_sigs := fed_sigs } ca
        = verify_certificate now cert ca := by
  have hexp : ¬ now > cert.expires := not_lt.mpr hnow
  have hne : cert.type ≠ CERT_TYPE_SELF_SIGNED := by
    rcases htype with h | h <;> rw [h] <;> decide
  have hs : strcmp cert.issuer ca.ca_cert.subject = 0 := (strcmp_eq_zero_iff _ _).mpr hissuer
  constructor
  · rw [← serial_issued_iff]
    by_cases hl : serial_issued cert.serial ca.issued = true
    · simp [verify_certificate, hexp, hne, hs, hl]
    · simp [verify_certificate, hexp, hne, hs, hl]
  · intro subject keys parent_sig sig_count fed_sigs
    simp [verify_certificate, hexp, hne, hs]

/-- Witness of C28: a federated certificate of serial 2 issued by `localhost`
and carrying key material, against a CA for `localhost` whose issued list
holds serial 2. -/
theorem verify_ledger_membership_witness :
    ((({ keyed_root with type := CERT_TYPE_FEDERATED, serial := 2 } : stoq_cert_t).type
          = CERT_TYPE_FEDERATED ∨
        ({ keyed_root with type := CERT_TYPE_FEDERATED, serial := 2 } : stoq_cert_t).type
          = CERT_TYPE_PUBLIC) ∧
      (1000 : Int) ≤ ({ keyed_root with type := CERT_TYPE_FEDERATED, serial := 2 }
        : stoq_cert_t).expires ∧
      cstr ({ keyed_root with type := CERT_TYPE_FEDERATED, serial := 2 } : stoq_cert_t).issuer
        = cstr ledger_ca.ca_cert.subject) ∧
    (verify_certificate 1000 { keyed_root with type := CERT_TYPE_FEDERATED, serial := 2 }
        ledger_ca = 0 ↔
      ∃ c ∈ ledger_ca.issued,
        ({ keyed_root with type := CERT_TYPE_FEDERATED, serial := 2 } : stoq_cert_t).serial
          = c.serial) ∧
    verify_certificate 1000 { keyed_root with type := CERT_TYPE_FEDERATED, serial := 2 }
      ledger_ca = 0 :=
  ⟨⟨Or.inl rfl, by decide, by decide⟩,
   (verify_ledger_membership 1000 { keyed_root with type := CERT_TYPE_FEDERATED, serial := 2 }
      ledger_ca (Or.inl rfl) (by decide) (by decide)).1,
   by decide⟩

/-! ## Issuances one after the other -/

/-- A sequence of calls adds one entry to the issued list per issuance. -/
theorem run_calls_issued_length (ca : ca_context_t) (calls : List ca_call) :
    (run_calls ca calls).issued.length = ca.issued.length + issue_count calls := by
  have h := congrArg List.length (run_calls_serials ca calls).2.2.2
  simpa using h

/-! ## The polling loops -/

theorem server_loop_nil (node : stoq_node_t) : server_loop [] node = node := rfl

/-- A pass of the server loop that finds `running` at 0 leaves the loop. -/
theorem server_loop_stop (t : tick) (rest : List tick) (node : stoq_node_t)
    (h : t.running = 0) : server_loop (t :: rest) node = node := by
  simp [server_loop, h]

/-- A pass of the server loop that finds `running` set and the handshake
reported. -/
theorem server_loop_report (t : tick) (rest : List tick) (node : stoq_node_t)
    (h : t.running ≠ 0) (hh : t.handshake = true) :
    server_loop (t :: rest) node =
      server_loop rest
        (if node.server_connected = 0 then { node with server_connected := 1 } else node) := by
  simp [server_loop, h, hh, stoq_server_process_events]

/-- A pass of the server loop that finds `running` set and no handshake
reported. -/
theorem server_loop_idle (t : tick) (rest : List tick) (node : stoq_node_t)
    (h : t.running ≠ 0) (hh : t.handshake = false) :
    server_loop (t :: rest) node = server_loop rest node := by
  simp [server_loop, h, hh, stoq_server_process_events]

/-- The server loop writes `server_connected` only, and only from 0. -/
theorem server_loop_frame (ticks : List tick) (node : stoq_node_t) :
    (server_loop ticks node).running = node.running ∧
    (server_loop ticks node).client_connected = node.client_connected ∧
    (server_loop ticks node).server_config = node.server_config ∧
    (server_loop ticks node).client_config = node.client_config ∧
    (node.server_connected ≠ 0 →
      (server_loop ticks node).server_connected = node.server_connected) := by
  induction ticks generalizing node with
  | nil => simp [server_loop_nil]
  | cons t rest ih =>
    by_cases h : t.running = 0
    · simp [server_loop_stop t rest node h]
    · cases hh : t.handshake with
      | false => rw [server_loop_idle t rest node h hh]; exact ih node
      | true =>
        rw [server_loop_report t rest node h hh]
        by_cases hc : node.server_connected = 0
        · rw [if_pos hc]
          obtain ⟨h1, h2, h3, h4, _⟩ := ih { node with server_connected := 1 }
          exact ⟨h1, h2, h3, h4, fun hne => absurd hc hne⟩
        · rw [if_neg hc]; exact ih node

/-- The flag `server_connected` after the server loop, from 0: it is 1 exactly
when one of the passes made, those before the first that finds `running` at 0,
had the handshake reported. -/
theorem server_loop_connected (ticks : List tick) (node : stoq_node_t)
    (h0 : node.server_connected = 0) :
    (server_loop ticks node).server_connected =
      if (ticks.takeWhile (fun t => t.running != 0)).any (fun t => t.handshake) then 1
      else 0 := by
  induction ticks generalizing node with
  | nil => simp [server_loop_nil, h0]
  | cons t rest ih =>
    by_cases h : t.running = 0
    · simp [server_loop_stop t rest node h, h, h0]
    · cases hh : t.handshake with
      | false =>
        rw [server_loop_idle t rest node h hh, ih node h0]
        simp [List.takeWhile_cons, h, hh]
      | true =>
        rw [server_loop_report t rest node h hh, if_pos h0]
        rw [(server_loop_frame rest { node with server_connected := 1 }).2.2.2.2 (by simp)]
        simp [List.takeWhile_cons, h, hh]

/-- The server loop over more passes: the passes of `more` are made after
those of `ticks`, or not at all. -/
theorem server_loop_append (ticks more : List tick) (node : stoq_node_t) :
    server_loop (ticks ++ more) node = server_loop more (server_loop ticks node) ∨
    server_loop (ticks ++ more) node = server_loop ticks node := by
  induction ticks generalizing node with
  | nil => left; rfl
  | cons t rest ih =>
    by_cases h : t.running = 0
    · right
      rw [List.cons_append, server_loop_stop t _ node h, server_loop_stop t rest node h]
    · cases hh : t.handshake with
      | false =>
        rw [List.cons_append, server_loop_idle t _ node h hh, server_loop_idle t rest node h hh]
        exact ih node
      | true =>
        rw [List.cons_append, server_loop_report t _ node h hh,
          server_loop_report t rest node h hh]
        exact ih _

theorem client_loop_nil (node : stoq_node_t) : client_loop [] node = node := rfl

/-- A pass of the client loop that finds `running` at 0 leaves the loop. -/
theorem client_loop_stop (t : tick) (rest : List tick) (node : stoq_node_t)
    (h : t.running = 0) : client_loop (t :: rest) node = node := by
  simp [client_loop, h]

/-- A pass of the client loop that finds `running` set and the handshake
reported. -/
theorem client_loop_report (t : tick) (rest : List tick) (node : stoq_node_t)
    (h : t.running ≠ 0) (hh : t.handshake = true) :
    client_loop (t :: rest) node =
      client_loop rest
        (if node.client_connected = 0 then { node with client_connected := 1 } else node) := by
  simp [client_loop, h, hh, stoq_client_process_events]

/-- A pass of the client loop that finds `running` set and no handshake
reported. -/
theorem client_loop_idle (t : tick) (rest : List tick) (node : stoq_node_t)
    (h : t.running ≠ 0) (hh : t.handshake = false) :
    client_loop (t :: rest) node = client_loop rest node := by
  simp [client_loop, h, hh, stoq_client_process_events]

/-- The client loop writes `client_connected` only, and only from 0. -/
theorem client_loop_frame (ticks : List tick) (node : stoq_node_t) :
    (client_loop ticks node).running = node.running ∧
    (client_loop ticks node).server_connected = node.server_connected ∧
    (client_loop ticks node).server_config = node.server_config ∧
    (client_loop ticks node).client_config = node.client_config ∧
    (node.client_connected ≠ 0 →
      (client_loop ticks node).client_connected = node.client_connected) := by
  induction ticks generalizing node with
  | nil => simp [client_loop_nil]
  | cons t rest ih =>
    by_cases h : t.running = 0
    · simp [client_loop_stop t rest node h]
    · cases hh : t.handshake with
      | false => rw [client_loop_idle t rest node h hh]; exact ih node
      | true =>
        rw [client_loop_report t rest node h hh]
        by_cases hc : node.client_connected = 0
        · rw [if_pos hc]
          obtain ⟨h1, h2, h3, h4, _⟩ := ih { node with client_connected := 1 }
          exact ⟨h1, h2, h3, h4, fun hne => absurd hc hne⟩
        · rw [if_neg hc]; exact ih node

/-- The flag `client_connected` after the client loop, from 0. -/
theorem client_loop_connected (ticks : List tick) (node : stoq_node_t)
    (h0 : node.client_connected = 0) :
    (client_loop ticks node).client_connected =
      if (ticks.takeWhile (fun t => t.running != 0)).any (fun t => t.handshake) then 1
      else 0 := by
  induction ticks generalizing node with
  | nil => simp [client_loop_nil, h0]
  | cons t rest ih =>
    by_cases h : t.running = 0
    · simp [client_loop_stop t rest node h, h, h0]
    · cases hh : t.handshake with
      | false =>
        rw [client_loop_idle t rest node h hh, ih node h0]
        simp [List.takeWhile_cons, h, hh]
      | true =>
        rw [client_loop_report t rest node h hh, if_pos h0]
        rw [(client_loop_frame rest { node with client_connected := 1 }).2.2.2.2 (by simp)]
        simp [List.takeWhile_cons, h, hh]

/-- The client loop over more passes. -/
theorem client_loop_append (ticks more : List tick) (node : stoq_node_t) :
    client_loop (ticks ++ more) node = client_loop more (client_loop ticks node) ∨
    client_loop (ticks ++ more) node = client_loop ticks node := by
  induction ticks generalizing node with
  | nil => left; rfl
  | cons t rest ih =>
    by_cases h : t.running = 0
    · right
      rw [List.cons_append, client_loop_stop t _ node h, client_loop_stop t rest node h]
    · cases hh : t.handshake with
      | false =>
        rw [List.cons_append, client_loop_idle t _ node h hh, client_loop_idle t rest node h hh]
        exact ih node
      | true =>
        rw [List.cons_append, client_loop_report t _ node h hh,
          client_loop_report t rest node h hh]
        exact ih _

/-- Once `server_connected` is 1 after some passes of the server loop, it is 1
after any further passes. -/
theorem server_loop_latch (ticks more : List tick) (node : stoq_node_t)
    (h : (server_loop ticks node).server_connected = 1) :
    (server_loop (ticks ++ more) node).server_connected = 1 := by
  rcases server_loop_append ticks more node with ha | ha
  · rw [ha, (server_loop_frame more (server_loop ticks node)).2.2.2.2 (by rw [h]; decide), h]
  · rw [ha, h]

/-- Once `client_connected` is 1 after some passes of the client loop, it is 1
after any further passes. -/
theorem client_loop_latch (ticks more : List tick) (node : stoq_node_t)
    (h : (client_loop ticks node).client_connected = 1) :
    (client_loop (ticks ++ more) node).client_connected = 1 := by
  rcases client_loop_append ticks more node with ha | ha
  · rw [ha, (client_loop_frame more (client_loop ticks node)).2.2.2.2 (by rw [h]; decide), h]
  · rw [ha, h]

/-- The client task when the guard of the outbound connection fails: the loop
alone. -/
theorem client_thread_func_idle (env : session_env) (n sent : Int) (ticks : List tick)
    (node : stoq_node_t) (file : Option (List Nat))
    (h : ¬ ((strcmp node.net_ctx.mode (lit "federated") = 0 ∨
            strcmp node.net_ctx.mode (lit "private") = 0) ∧
          strlen node.net_ctx.server > 0 ∧
          strcmp node.net_ctx.server node.net_ctx.hostname ≠ 0)) :
    client_thread_func env n sent ticks node file = ⟨client_loop ticks node, [], file⟩ := by
  unfold client_thread_func
  by_cases h1 : strcmp node.net_ctx.mode (lit "federated") = 0 ∨
      strcmp node.net_ctx.mode (lit "private") = 0
  · rw [if_pos h1]
    have h2 : ¬ (strlen node.net_ctx.server > 0 ∧
        strcmp node.net_ctx.server node.net_ctx.hostname ≠ 0) := fun h2 => h ⟨h1, h2⟩
    rw [if_neg h2]
  · rw [if_neg h1]

/-- The client task when the guard of the outbound connection holds and
`init_stoq_client` fails. -/
theorem client_thread_func_init_failed (env : session_env) (n sent : Int) (ticks : List tick)
    (node : stoq_node_t) (file : Option (List Nat))
    (h : (strcmp node.net_ctx.mode (lit "federated") = 0 ∨
            strcmp node.net_ctx.mode (lit "private") = 0) ∧
          strlen node.net_ctx.server > 0 ∧
          strcmp node.net_ctx.server node.net_ctx.hostname ≠ 0)
    (hinit : (init_stoq_client env node.net_ctx node.net_ctx.server node.server_config.port
      node.client_config file).status ≠ 0) :
    client_thread_func env n sent ticks node file =
      ⟨{ node with
          client_config := (init_stoq_client env node.net_ctx node.net_ctx.server
            node.server_config.port node.client_config file).config
          running := 0 },
        event.client_init :: (init_stoq_client env node.net_ctx node.net_ctx.server
          node.server_config.port node.client_config file).events,
        (init_stoq_client env node.net_ctx node.net_ctx.server node.server_config.port
          node.client_config file).file⟩ := by
  unfold client_thread_func
  rw [if_pos h.1, if_pos h.2]
  simp only [if_pos hinit]

/-- The client task when the guard holds, `init_stoq_client` succeeds and
`stoq_client_connect` fails. -/
theorem client_thread_func_connect_failed (env : session_env) (n sent : Int)
    (ticks : List tick) (node : stoq_node_t) (file : Option (List Nat))
    (h : (strcmp node.net_ctx.mode (lit "federated") = 0 ∨
            strcmp node.net_ctx.mode (lit "private") = 0) ∧
          strlen node.net_ctx.server > 0 ∧
          strcmp node.net_ctx.server node.net_ctx.hostname ≠ 0)
    (hinit : (init_stoq_client env node.net_ctx node.net_ctx.server node.server_config.port
      node.client_config file).status = 0)
    (hconn : stoq_client_connect (init_stoq_client env node.net_ctx node.net_ctx.server
      node.server_config.port node.client_config file).config n sent ≠ 0) :
    client_thread_func env n sent ticks node file =
      ⟨{ node with
          client_config := (init_stoq_client env node.net_ctx node.net_ctx.server
            node.server_config.port node.client_config file).config
          running := 0 },
        event.client_init :: (init_stoq_client env node.net_ctx node.net_ctx.server
          node.server_config.port node.client_config file).events ++ [event.client_connect],
        (init_stoq_client env node.net_ctx node.net_ctx.server node.server_config.port
          node.client_config file).file⟩ := by
  unfold client_thread_func
  rw [if_pos h.1, if_pos h.2]
  simp only [hinit, ne_eq, not_true_eq_false, if_false, if_pos hconn]

/-- The client task when the guard holds and both `init_stoq_client` and
`stoq_client_connect` succeed: the loop on the new config. -/
theorem client_thread_func_connected (env : session_env) (n sent : Int)
    (ticks : List tick) (node : stoq_node_t) (file : Option (List Nat))
    (h : (strcmp node.net_ctx.mode (lit "federated") = 0 ∨
            strcmp node.net_ctx.mode (lit "private") = 0) ∧
          strlen node.net_ctx.server > 0 ∧
          strcmp node.net_ctx.server node.net_ctx.hostname ≠ 0)
    (hinit : (init_stoq_client env node.net_ctx node.net_ctx.server node.server_config.port
      node.client_config file).status = 0)
    (hconn : stoq_client_connect (init_stoq_client env node.net_ctx node.net_ctx.server
      node.server_config.port node.client_config file).config n sent = 0) :
    client_thread_func env n sent ticks node file =
      ⟨client_loop ticks { node with
          client_config := (init_stoq_client env node.net_ctx node.net_ctx.server
            node.server_config.port node.client_config file).config },
        event.client_init :: (init_stoq_client env node.net_ctx node.net_ctx.server
          node.server_config.port node.client_config file).events ++ [event.client_connect],
        (init_stoq_client env node.net_ctx node.net_ctx.server node.server_config.port
          node.client_config file).file⟩ := by
  unfold client_thread_func
  rw [if_pos h.1, if_pos h.2]
  simp only [hinit, hconn, ne_eq, not_true_eq_false, if_false]

/-- C29: the node `init_node` builds has both handshake flags at 0. From 0,
the flag of a polling loop is 1 after some passes exactly when one of the
passes made had the handshake reported, so it is set at the first such pass;
and in both tasks a flag that is 1 after some passes is 1 after any further
passes. -/
theorem handshake_latch (node : stoq_node_t) (ticks more : List tick) (env : session_env)
    (n sent : Int) (file : Option (List Nat))
    (hserver : node.server_connected = 0) (hclient : node.client_connected = 0) :
    (∀ net_ctx ca_ctx server_port client_port server_started client_started fresh,
      (init_node net_ctx ca_ctx server_port client_port server_started client_started).2
          = some fresh →
        fresh.server_connected = 0 ∧ fresh.client_connected = 0) ∧
    (server_loop ticks node).server_connected =
      (if (ticks.takeWhile (fun t => t.running != 0)).any (fun t => t.handshake) then 1
       else 0) ∧
    (client_loop ticks node).client_connected =
      (if (ticks.takeWhile (fun t => t.running != 0)).any (fun t => t.handshake) then 1
       else 0) ∧
    ((server_thread_func env ticks node file).node.server_connected = 1 →
      (server_thread_func env (ticks ++ more) node file).node.server_connected = 1) ∧
    ((client_thread_func env n sent ticks node file).node.client_connected = 1 →
      (client_thread_func env n sent (ticks ++ more) node file).node.client_connected = 1) := by
  refine ⟨?_, server_loop_connected ticks node hserver, client_loop_connected ticks node hclient,
    ?_, ?_⟩
  · intro net_ctx ca_ctx server_port client_port server_started client_started fresh hfresh
    cases server_started <;> cases client_started <;> simp [init_node] at hfresh
    rw [← hfresh]
    exact ⟨rfl, rfl⟩
  · unfold server_thread_func
    by_cases hst : (init_stoq_server env node.server_config node.net_ctx file).status ≠ 0
    · simp only [if_pos hst]; exact id
    · simp only [if_neg hst]; exact server_loop_latch ticks more _
  · by_cases hg : (strcmp node.net_ctx.mode (lit "federated") = 0 ∨
        strcmp node.net_ctx.mode (lit "private") = 0) ∧
      strlen node.net_ctx.server > 0 ∧
      strcmp node.net_ctx.server node.net_ctx.hostname ≠ 0
    · by_cases hinit : (init_stoq_client env node.net_ctx node.net_ctx.server
          node.server_config.port node.client_config file).status = 0
      · by_cases hconn : stoq_client_connect (init_stoq_client env node.net_ctx
            node.net_ctx.server node.server_config.port node.client_config file).config
            n sent = 0
        · rw [client_thread_func_connected env n sent ticks node file hg hinit hconn,
            client_thread_func_connected env n sent (ticks ++ more) node file hg hinit hconn]
          exact client_loop_latch ticks more _
        · rw [client_thread_func_connect_failed env n sent ticks node file hg hinit hconn,
            client_thread_func_connect_failed env n sent (ticks ++ more) node file hg hinit
              hconn]
          exact id
      · rw [client_thread_func_init_failed env n sent ticks node file hg hinit,
          client_thread_func_init_failed env n sent (ticks ++ more) node file hg hinit]
        exact id
    · rw [client_thread_func_idle env n sent ticks node file hg,
        client_thread_func_idle env n sent (ticks ++ more) node file hg]
      exact client_loop_latch ticks more _

/-- Witness of C29: on the sample node the server loop makes three passes, the
handshake is reported at the second, and a fourth pass is added. -/
theorem handshake_latch_witness :
    (sample_node.server_connected = 0 ∧ sample_node.client_connected = 0) ∧
    (server_loop [⟨1, false⟩] sample_node).server_connected = 0 ∧
    (server_loop [⟨1, false⟩, ⟨1, true⟩] sample_node).server_connected = 1 ∧
    (server_loop [⟨1, false⟩, ⟨1, true⟩, ⟨1, false⟩] sample_node).server_connected = 1 ∧
    ((server_thread_func good_env [⟨1, false⟩, ⟨1, true⟩, ⟨1, false⟩] sample_node
        none).node.server_connected = 1 →
      (server_thread_func good_env ([⟨1, false⟩, ⟨1, true⟩, ⟨1, false⟩] ++ [⟨1, false⟩])
        sample_node none).node.server_connected = 1) :=
  ⟨⟨rfl, rfl⟩,
   (handshake_latch sample_node [⟨1, false⟩] [] good_env 1 1 none rfl rfl).2.1.trans (by decide),
   (handshake_latch sample_node [⟨1, false⟩, ⟨1, true⟩] [] good_env 1 1 none rfl
      rfl).2.1.trans (by decide),
   (handshake_latch sample_node [⟨1, false⟩, ⟨1, true⟩, ⟨1, false⟩] [] good_env 1 1 none rfl
      rfl).2.1.trans (by decide),
   (handshake_latch sample_node [⟨1, false⟩, ⟨1, true⟩, ⟨1, false⟩] [⟨1, false⟩] good_env 1 1
      none rfl rfl).2.2.2.1⟩


/-! ## The outbound connection of the client task -/

/-- The events of `init_stoq_client` are creations of a connection and of a
socket and the closing of a socket. -/
theorem init_stoq_client_events (env : session_env) (net_ctx : network_context_t)
    (remote_addr : List Nat) (port : Int) (config : stoq_client_config_t)
    (file : Option (List Nat)) :
    event.client_init ∉ (init_stoq_client env net_ctx remote_addr port config file).events ∧
    event.client_connect ∉ (init_stoq_client env net_ctx remote_addr port config file).events := by
  unfold init_stoq_client
  dsimp only
  repeat' split
  all_goals simp

/-- The guard of `client_thread_func`, in terms of the strings. -/
theorem client_guard_iff (net_ctx : network_context_t) :
    ((strcmp net_ctx.mode (lit "federated") = 0 ∨ strcmp net_ctx.mode (lit "private") = 0) ∧
      strlen net_ctx.server > 0 ∧ strcmp net_ctx.server net_ctx.hostname ≠ 0) ↔
    ((cstr net_ctx.mode = lit "private" ∨ cstr net_ctx.mode = lit "federated") ∧
      cstr net_ctx.server ≠ [] ∧ cstr net_ctx.server ≠ cstr net_ctx.hostname) := by
  have hp : cstr (lit "private") = lit "private" := by decide
  have hf : cstr (lit "federated") = lit "federated" := by decide
  rw [strcmp_eq_zero_iff, strcmp_eq_zero_iff, hp, hf, Ne, strcmp_eq_zero_iff]
  have hlen : strlen net_ctx.server > 0 ↔ cstr net_ctx.server ≠ [] := by
    unfold strlen
    exact List.length_pos
  rw [hlen]
  tauto


/-- C24: the client task calls `init_stoq_client` exactly when the mode is
`private` or `federated`, the peer address is not empty and the peer address
is not the hostname; it is then the first call the task makes, and
`stoq_client_connect` follows as the last one exactly when `init_stoq_client`
succeeded. When the peer address is the hostname the task makes none of the
recorded calls. -/
theorem client_attempts_iff (env : session_env) (n sent : Int) (ticks : List tick)
    (node : stoq_node_t) (file : Option (List Nat)) :
    (event.client_init ∈ (client_thread_func env n sent ticks node file).events ↔
      ((cstr node.net_ctx.mode = lit "private" ∨ cstr node.net_ctx.mode = lit "federated") ∧
        cstr node.net_ctx.server ≠ [] ∧
        cstr node.net_ctx.server ≠ cstr node.net_ctx.hostname)) ∧
    (event.client_connect ∈ (client_thread_func env n sent ticks node file).events ↔
      ((cstr node.net_ctx.mode = lit "private" ∨ cstr node.net_ctx.mode = lit "federated") ∧
        cstr node.net_ctx.server ≠ [] ∧
        cstr node.net_ctx.server ≠ cstr node.net_ctx.hostname) ∧
      (init_stoq_client env node.net_ctx node.net_ctx.server node.server_config.port
        node.client_config file).status = 0) ∧
    (event.client_init ∈ (client_thread_func env n sent ticks node file).events →
      (client_thread_func env n sent ticks node file).events.head? = some event.client_init) ∧
    (event.client_connect ∈ (client_thread_func env n sent ticks node file).events →
      (client_thread_func env n sent ticks node file).events.getLast?
        = some event.client_connect) ∧
    (cstr node.net_ctx.server = cstr node.net_ctx.hostname →
      (client_thread_func env n sent ticks node file).events = []) := by
  obtain ⟨hi, hc⟩ := init_stoq_client_events env node.net_ctx node.net_ctx.server
    node.server_config.port node.client_config file
  have hlast : ∀ (a b : event) (l : List event), (a :: (l ++ [b])).getLast? = some b :=
    fun a b l => List.getLast?_concat (a :: l)
  rw [← client_guard_iff]
  by_cases hg : (strcmp node.net_ctx.mode (lit "federated") = 0 ∨
      strcmp node.net_ctx.mode (lit "private") = 0) ∧
    strlen node.net_ctx.server > 0 ∧
    strcmp node.net_ctx.server node.net_ctx.hostname ≠ 0
  · have hne : cstr node.net_ctx.server ≠ cstr node.net_ctx.hostname :=
      ((client_guard_iff node.net_ctx).mp hg).2.2
    by_cases hinit : (init_stoq_client env node.net_ctx node.net_ctx.server
        node.server_config.port node.client_config file).status = 0
    · by_cases hconn : stoq_client_connect (init_stoq_client env node.net_ctx
          node.net_ctx.server node.server_config.port node.client_config file).config
          n sent = 0
      · rw [client_thread_func_connected env n sent ticks node file hg hinit hconn]
        simp [hg, hinit, hne, hlast]
      · rw [client_thread_func_connect_failed env n sent ticks node file hg hinit hconn]
        simp [hg, hinit, hne, hlast]
    · rw [client_thread_func_init_failed env n sent ticks node file hg hinit]
      simp [hg, hinit, hne, hc]
  · rw [client_thread_func_idle env n sent ticks node file hg]
    simp [hg]

/-- Witness of C24: in private mode with peer `peer.localhost` the client task
calls `init_stoq_client` and then `stoq_client_connect`; with the hostname as
peer it makes no call. -/
theorem client_attempts_iff_witness :
    (client_thread_func good_env 1 1 [] sample_node none).events
      = [event.client_init, event.conn_new 1, event.sock_new 5, event.client_connect] ∧
    (event.client_init ∈ (client_thread_func good_env 1 1 [] sample_node none).events ↔
      ((cstr sample_node.net_ctx.mode = lit "private" ∨
          cstr sample_node.net_ctx.mode = lit "federated") ∧
        cstr sample_node.net_ctx.server ≠ [] ∧
        cstr sample_node.net_ctx.server ≠ cstr sample_node.net_ctx.hostname)) ∧
    (client_thread_func good_env 1 1 []
      { sample_node with net_ctx := sample_ctx "private" } none).events = [] :=
  ⟨by decide,
   (client_attempts_iff good_env 1 1 [] sample_node none).1,
   (client_attempts_iff good_env 1 1 [] { sample_node with net_ctx := sample_ctx "private" }
      none).2.2.2.2 (by decide)⟩

/-! ## Failure of a polling task -/

/-- C27, as amended: a failure of `init_stoq_server` in the server task sets
`running` to 0; a failure of `init_stoq_client` or of `stoq_client_connect` in
the client task sets `running` to 0 as well; neither polling loop writes
`running`, and `process_events` does not fail on the configs of the node. -/
theorem task_failure_running (env : session_env) (n sent : Int) (ticks : List tick)
    (node : stoq_node_t) (file : Option (List Nat)) :
    ((init_stoq_server env node.server_config node.net_ctx file).status ≠ 0 →
      (server_thread_func env ticks node file).node.running = 0) ∧
    (((cstr node.net_ctx.mode = lit "private" ∨ cstr node.net_ctx.mode = lit "federated") ∧
        cstr node.net_ctx.server ≠ [] ∧
        cstr node.net_ctx.server ≠ cstr node.net_ctx.hostname) →
      (init_stoq_client env node.net_ctx node.net_ctx.server node.server_config.port
        node.client_config file).status ≠ 0 →
      (client_thread_func env n sent ticks node file).node.running = 0) ∧
    (((cstr node.net_ctx.mode = lit "private" ∨ cstr node.net_ctx.mode = lit "federated") ∧
        cstr node.net_ctx.server ≠ [] ∧
        cstr node.net_ctx.server ≠ cstr node.net_ctx.hostname) →
      (init_stoq_client env node.net_ctx node.net_ctx.server node.server_config.port
        node.client_config file).status = 0 →
      stoq_client_connect (init_stoq_client env node.net_ctx node.net_ctx.server
        node.server_config.port node.client_config file).config n sent ≠ 0 →
      (client_thread_func env n sent ticks node file).node.running = 0) ∧
    (server_loop ticks node).running = node.running ∧
    (client_loop ticks node).running = node.running ∧
    stoq_server_process_events (some node.server_config) = 0 ∧
    stoq_client_process_events (some node.client_config) = 0 := by
  refine ⟨?_, ?_, ?_, (server_loop_frame ticks node).1, (client_loop_frame ticks node).1,
    rfl, rfl⟩
  · intro hst
    unfold server_thread_func
    simp only [if_pos hst]
  · intro hg hinit
    rw [client_thread_func_init_failed env n sent ticks node file
      ((client_guard_iff node.net_ctx).mpr hg) hinit]
  · intro hg hinit hconn
    rw [client_thread_func_connect_failed env n sent ticks node file
      ((client_guard_iff node.net_ctx).mpr hg) hinit hconn]

/-- Witness of C27: on the sample node a server task whose `bind` fails, a
client task whose `socket` fails and a client task whose `sendto` fails each
leave `running` at 0. -/
theorem task_failure_running_witness :
    (server_thread_func { good_env with bound := -1 } [⟨1, false⟩] sample_node
      none).node.running = 0 ∧
    (client_thread_func { good_env with sock := -1 } 1 1 [⟨1, false⟩] sample_node
      none).node.running = 0 ∧
    (client_thread_func good_env 1 (-1) [⟨1, false⟩] sample_node none).node.running = 0 :=
  ⟨(task_failure_running { good_env with bound := -1 } 1 1 [⟨1, false⟩] sample_node none).1
      (by decide),
   (task_failure_running { good_env with sock := -1 } 1 1 [⟨1, false⟩] sample_node none).2.1
      (by decide) (by decide),
   (task_failure_running good_env 1 (-1) [⟨1, false⟩] sample_node none).2.2.1
      (by decide) (by decide) (by decide)⟩

/-- Counterexample to C27 as stated: on the sample node, whose `running` is 1,
the client task whose `init_stoq_client` fails at `socket` returns with
`running` at 0. -/
theorem client_failure_stops_node :
    sample_node.running = 1 ∧
    (init_stoq_client { good_env with sock := -1 } sample_node.net_ctx
      sample_node.net_ctx.server sample_node.server_config.port sample_node.client_config
      none).status = -1 ∧
    (client_thread_func { good_env with sock := -1 } 1 1 [⟨1, false⟩] sample_node
      none).node.running = 0 := by
  refine ⟨rfl, ?_, ?_⟩ <;> decide

/-! ## The CA of the two sessions -/

/-- C23, the failing input: the CA is initialised in federated mode for
`localhost` with no persisted root and passed to `init_node`, then the server
task and the client task run. Each session holds a CA context of its own,
loaded from `ca.cert`; each issued list holds the certificate of that session
only; both certificates have serial 2; and the issued list of the CA passed to
`init_node` is empty. -/
theorem sessions_use_separate_cas :
    ∃ ca_main file node server_ca client_ca server_cert client_cert,
      init_certificate_authority 0 zeroed (peer_ctx "federated") none
        = (0, some ca_main, some file) ∧
      init_node (peer_ctx "federated") ca_main 10053 10443 true true = (0, some node) ∧
      (client_thread_func other_env 1 1 []
        (server_thread_func good_env [] node (some file)).node
        (some file)).node.server_config.ca_ctx = some server_ca ∧
      (client_thread_func other_env 1 1 []
        (server_thread_func good_env [] node (some file)).node
        (some file)).node.server_config.cert = some server_cert ∧
      (client_thread_func other_env 1 1 []
        (server_thread_func good_env [] node (some file)).node
        (some file)).node.client_config.ca_ctx = some client_ca ∧
      (client_thread_func other_env 1 1 []
        (server_thread_func good_env [] node (some file)).node
        (some file)).node.client_config.cert = some client_cert ∧
      server_ca.issued = [server_cert] ∧
      client_ca.issued = [client_cert] ∧
      server_cert.serial = 2 ∧
      client_cert.serial = 2 ∧
      ca_main.issued = [] := by
  refine ⟨_, _, _, _, _, _, _, rfl, rfl, rfl, rfl, rfl, rfl, rfl, rfl, ?_, ?_, rfl⟩ <;> decide


/-! ## Stopping the node -/

/-- C26, the failing input: on the sample node the server task gets socket 5
and its `bind` fails, then the node is cleaned up: socket 5 is opened once and
closed twice. And the client task gets connection 2 and its `socket` fails,
then the node is cleaned up: connection 2 is created and never deleted. -/
theorem failed_session_release :
    ((server_thread_func { good_env with bound := -1 } [] sample_node none).events ++
      (cleanup_node (some (server_thread_func { good_env with bound := -1 } [] sample_node
        none).node)).2)
      = [event.conn_new 1, event.sock_new 5, event.sock_close 5,
         event.thread_join true, event.thread_join false, event.conn_del 1, event.sock_close 5,
         event.node_free] ∧
    ((client_thread_func { other_env with sock := -1 } 1 1 [] sample_node none).events ++
      (cleanup_node (some (client_thread_func { other_env with sock := -1 } 1 1 [] sample_node
        none).node)).2)
      = [event.client_init, event.conn_new 2,
         event.thread_join true, event.thread_join false, event.node_free] := by
  refine ⟨?_, ?_⟩ <;> decide


/-! ## Reloading the root -/

/-- The serial `load_certificate` returns on the file `save_certificate`
wrote: the low 32 bits of the saved serial, and above them the prior content
of the memory. -/
theorem load_save_serial (mem : uninit_t) (c : stoq_cert_t) :
    ∃ l, load_certificate mem (some (save_certificate c).2) = some l ∧
      l.serial = c.serial % 2 ^ 32 + 2 ^ 32 * le_value ((block mem.serial 8).drop 4) := by
  have hfile : (save_certificate c).2 =
      le_bytes 4 c.serial ++ ((save_certificate c).2).drop 4 := by
    simp only [save_certificate, fwrite, le_bytes_take, List.nil_append, List.append_assoc]
    rw [List.drop_left' (le_bytes_length 4 c.serial)]
  have h32 : (256 : Nat) ^ 4 = 2 ^ 32 := by norm_num
  refine ⟨_, rfl, ?_⟩
  show le_value (fread (block mem.serial 8) 4 (save_certificate c).2).1 = _
  rw [hfile, fread_append _ _ _ 4 (le_bytes_length 4 _)]
  dsimp only
  rw [le_value_append, le_value_le_bytes, le_bytes_length, h32]

theorem save_certificate_status (c : stoq_cert_t) : (save_certificate c).1 = 0 := rfl

/-- What `init_certificate_authority` returns when no root is persisted: a
root of serial 1, an empty issued list, and the file of that root. -/
theorem init_fresh_eq (now : Int) (mem : uninit_t) (net_ctx : network_context_t) :
    ∃ root, root.serial = 1 ∧
      init_certificate_authority now mem net_ctx none =
        (0, some { ca_cert := root, issued := [] }, some (save_certificate root).2) := by
  refine
    ⟨{ keys := falcon_keys_zero
       serial := 1
       created := now
       expires := now + 365 * 24 * 60 * 60
       subject := strdup net_ctx.hostname
       issuer := strdup net_ctx.hostname
       parent_sig := none
       sig_count := 0
       fed_sigs := none
       type :=
         if strcmp net_ctx.mode (lit "private") = 0 then CERT_TYPE_SELF_SIGNED
         else if strcmp net_ctx.mode (lit "federated") = 0 then CERT_TYPE_FEDERATED
         else CERT_TYPE_PUBLIC }, rfl, ?_⟩
  simp only [init_certificate_authority, save_certificate_status, ne_eq, not_true_eq_false,
    if_false]

/-- What `init_certificate_authority` returns when `ca.cert` holds the file
written at the creation of a root: the file is left as it is, the issued list
is empty and the counter is 1 plus `2^32` times the prior content of the four
upper bytes of the serial field. -/
theorem init_reload (t0 t1 : Int) (mem mem2 : uninit_t) (net_ctx net_ctx2 : network_context_t) :
    ∃ ca0 file ca1,
      init_certificate_authority t0 mem net_ctx none = (0, some ca0, some file) ∧
      ca0.ca_cert.serial = 1 ∧ ca0.issued = [] ∧
      init_certificate_authority t1 mem2 net_ctx2 (some file) = (0, some ca1, some file) ∧
      ca1.issued = [] ∧
      ca1.ca_cert.serial = 1 + 2 ^ 32 * le_value ((block mem2.serial 8).drop 4) := by
  obtain ⟨root, hroot, h1⟩ := init_fresh_eq t0 mem net_ctx
  obtain ⟨l, hl, hs⟩ := load_save_serial mem2 root
  have h2 : init_certificate_authority t1 mem2 net_ctx2 (some (save_certificate root).2) =
      (0, some { ca_cert := l, issued := [] }, some (save_certificate root).2) := by
    simp only [init_certificate_authority]
    rw [hl]
  rw [hroot] at hs
  exact ⟨_, _, _, h1, hroot, rfl, h2, rfl, hs⟩


/-- The reload in full: the file written at the creation of the root is what
a later `init_certificate_authority` finds, whatever was issued in between,
and that call leaves it as it is. After `n` issuances the counter in memory is
`1 + n` modulo `2^64` and the first certificate issued has serial 2. The CA
initialised again from the file has an empty issued list and a counter of 1
plus `2^32` times the prior content of the four upper bytes of the serial
field; when those bytes are zero the counter is 1 again and the first
certificate issued has serial 2 again. -/
theorem reload_repeats_serials (t0 t1 t2 : Int) (mem mem2 : uninit_t)
    (net_ctx net_ctx2 : network_context_t) (calls : List ca_call) (hostname : List Nat) :
    ∃ ca0 file ca1,
      init_certificate_authority t0 mem net_ctx none = (0, some ca0, some file) ∧
      (run_calls ca0 calls).issued.head?.map (fun c => c.serial)
        = (if issue_count calls = 0 then none else some 2) ∧
      (run_calls ca0 calls).ca_cert.serial = (1 + issue_count calls) % 2 ^ 64 ∧
      init_certificate_authority t1 mem2 net_ctx2 (some file) = (0, some ca1, some file) ∧
      ca1.issued = [] ∧
      ca1.ca_cert.serial = 1 + 2 ^ 32 * le_value ((block mem2.serial 8).drop 4) ∧
      (le_value ((block mem2.serial 8).drop 4) = 0 →
        ca1.ca_cert.serial = 1 ∧
        (handle_cert_request t2 ca1 hostname).2.2.map (fun c => c.serial) = some 2) := by
  obtain ⟨ca0, file, ca1, h0, hs0, hi0, h1, hi1, hs1⟩ := init_reload t0 t1 mem mem2 net_ctx net_ctx2
  obtain ⟨k1, k2, k3, k4⟩ := run_calls_serials ca0 calls
  rw [hs0] at k1 k2 k4
  rw [hi0, List.map_nil, List.nil_append] at k4
  refine ⟨ca0, file, ca1, h0, ?_, ?_, h1, hi1, hs1, ?_⟩
  · rw [← List.head?_map, k4]
    cases hn : issue_count calls with
    | zero => simp
    | succ n => simp [List.range_succ_eq_map]
  · by_cases hz : issue_count calls = 0
    · rw [k2 hz, hz]; rfl
    · rw [← k1]; exact (Nat.mod_eq_of_lt (k3 (Nat.pos_of_ne_zero hz))).symm
  · intro hg
    rw [hg] at hs1
    have hone : ca1.ca_cert.serial = 1 := by rw [hs1]; norm_num
    refine ⟨hone, ?_⟩
    rw [handle_cert_request_eq]
    simp [new_cert, hone, u64]

/-- C30, the failing input: the root file written for `localhost`, whose
serial is 1, is loaded into memory whose serial field held bytes of value 7.
The counter of the CA initialised from the file is `1 + 2^32 * 117901063`,
not 1, and the first certificate it issues has the serial after it, not 2. -/
theorem reload_counter_stale :
    ∃ ca0 file ca1 ca2 cert,
      init_certificate_authority 0 zeroed (sample_ctx "public") none
        = (0, some ca0, some file) ∧
      init_certificate_authority 50 stale_memory (sample_ctx "public") (some file)
        = (0, some ca1, some file) ∧
      ca1.ca_cert.serial = 506381209748635649 ∧
      handle_cert_request 60 ca1 (lit "c") = (0, ca2, some cert) ∧
      cert.serial = 506381209748635650 := by
  refine ⟨_, _, _, _, _, rfl, rfl, ?_, rfl, ?_⟩ <;> decide

end Stoq
